import Mathlib

/-!
Mortgage calculator (`src/pages/index.js`)

A shallow embedding of the component `MortgageCalculator`: its three pieces of state
(`formData`, `results`, `errors`), the validation function `validateForm` and the submit
handler `calculateRepayment`, together with the JavaScript built-ins the handler calls
(`parseFloat`, `parseInt`, `Math.pow`, `Number.prototype.toFixed` and the arithmetic
operators).

A JavaScript Number is an IEEE 754 binary64 value.  It is modelled by the rational it denotes,
one of the two infinities, or NaN, and every operation rounds its exact result to a double:
to the nearest one, to the even significand on a tie, with gradual underflow and with overflow
to an infinity (`roundToDouble`).  `parseFloat` and `parseInt` round the value they read in
the same way.  `Math.pow` is implementation-approximated in ECMAScript; its finite case is a
parameter of the model (`PowImpl`), required to return one of the two doubles that enclose the
exact power.  Zero carries no sign: the program divides only by a zero that comes out of
`1 - Math.pow(..)` and raises to a negative power only a zero that comes out of
`1 + monthlyRate`, and both of those are `+0`, so the operations below treat a zero divisor
and a zero base as `+0`; the sign of a zero is otherwise invisible to `toFixed`.
-/

namespace MortgageCalculator

/-! ## Numbers -/

/-- A JavaScript Number: a finite value, `Infinity` / `-Infinity`, or `NaN`. -/
inductive JSNum where
  | num (q : ℚ)
  | inf (negative : Bool)
  | nan
  deriving DecidableEq

/-- A JavaScript Number known to be an integer, an infinity or `NaN`: the range of `parseInt`,
closed under multiplication and under negation. -/
inductive JSInt where
  | int (z : ℤ)
  | inf (negative : Bool)
  | nan
  deriving DecidableEq

/-- Rounding to the nearest integer, to the even one on a tie. -/
def roundHalfEven (t : ℚ) : ℤ :=
  if t - ⌊t⌋ < 1 / 2 then ⌊t⌋
  else if 1 / 2 < t - ⌊t⌋ then ⌊t⌋ + 1
  else if ⌊t⌋ % 2 = 0 then ⌊t⌋ else ⌊t⌋ + 1

/-- The exponent of the unit in the last place of the doubles around `x`: 52 below the binary
exponent of `x`, and `-1074` throughout the subnormal range, zero included. -/
def ulpExponent (x : ℚ) : ℤ := if x = 0 then -1074 else max (Int.log 2 |x|) (-1022) - 52

/-- The exact value scaled by its unit in the last place, with the integer significand chosen by
`pick`, scaled back. -/
def roundedValue (pick : ℚ → ℤ) (x : ℚ) : ℚ :=
  (pick (x / 2 ^ ulpExponent x) : ℚ) * 2 ^ ulpExponent x

/-- Rounding of an exact value to a double; a result of magnitude `2^1024` or more is an
infinity. -/
def roundWith (pick : ℚ → ℤ) (x : ℚ) : JSNum :=
  if 2 ^ 1024 ≤ |roundedValue pick x| then JSNum.inf (decide (x < 0))
  else JSNum.num (roundedValue pick x)

/-- Rounding to the nearest double, ties to even: the rounding of every arithmetic operation
and of number parsing. -/
def roundToDouble (x : ℚ) : JSNum := roundWith roundHalfEven x

/-- Rounding towards minus infinity. -/
def roundDown (x : ℚ) : JSNum := roundWith (fun t => ⌊t⌋) x

/-- Rounding towards plus infinity. -/
def roundUp (x : ℚ) : JSNum := roundWith (fun t => ⌈t⌉) x

namespace JSNum

/-- Unary minus. -/
def neg : JSNum → JSNum
  | num q => num (-q)
  | inf b => inf (!b)
  | nan => nan

/-- The operator `+`. -/
def add : JSNum → JSNum → JSNum
  | nan, _ => nan
  | _, nan => nan
  | inf a, inf b => if a = b then inf a else nan
  | inf a, num _ => inf a
  | num _, inf b => inf b
  | num a, num b => roundToDouble (a + b)

/-- The operator `-`: the sum with the negated right operand. -/
def sub (x y : JSNum) : JSNum := add x (neg y)

/-- The operator `*`. -/
def mul : JSNum → JSNum → JSNum
  | nan, _ => nan
  | _, nan => nan
  | inf a, inf b => inf (xor a b)
  | inf a, num q => if q = 0 then nan else inf (xor a (decide (q < 0)))
  | num q, inf b => if q = 0 then nan else inf (xor (decide (q < 0)) b)
  | num a, num b => roundToDouble (a * b)

/-- The operator `/`; a zero divisor is `+0`. -/
def div : JSNum → JSNum → JSNum
  | nan, _ => nan
  | _, nan => nan
  | inf _, inf _ => nan
  | inf a, num q => inf (xor a (decide (q < 0)))
  | num _, inf _ => num 0
  | num a, num b =>
    if b = 0 then (if a = 0 then nan else inf (decide (a < 0))) else roundToDouble (a / b)

/-- The relation `<=` of JavaScript: false when either side is `NaN`. -/
def le : JSNum → JSNum → Prop
  | nan, _ => False
  | _, nan => False
  | inf a, inf b => a = true ∨ b = false
  | inf a, num _ => a = true
  | num _, inf b => b = false
  | num a, num b => a ≤ b

instance : Neg JSNum := ⟨neg⟩
instance : Add JSNum := ⟨add⟩
instance : Sub JSNum := ⟨sub⟩
instance : Mul JSNum := ⟨mul⟩
instance : Div JSNum := ⟨div⟩
instance (n : ℕ) : OfNat JSNum n := ⟨num n⟩

end JSNum

namespace JSInt

/-- The Number for an exact integer: the nearest double, which is again an integer, or an
infinity. -/
def round (z : ℤ) : JSInt :=
  match roundToDouble z with
  | JSNum.num q => int ⌊q⌋
  | JSNum.inf b => inf b
  | JSNum.nan => nan

/-- The integer seen as a general Number. -/
def toNum : JSInt → JSNum
  | int z => JSNum.num z
  | inf b => JSNum.inf b
  | nan => JSNum.nan

/-- Unary minus. -/
def neg : JSInt → JSInt
  | int z => int (-z)
  | inf b => inf (!b)
  | nan => nan

/-- The operator `*` on integral operands. -/
def mul : JSInt → JSInt → JSInt
  | nan, _ => nan
  | _, nan => nan
  | inf a, inf b => inf (xor a b)
  | inf a, int z => if z = 0 then nan else inf (xor a (decide (z < 0)))
  | int z, inf b => if z = 0 then nan else inf (xor (decide (z < 0)) b)
  | int a, int b => round (a * b)

instance : Neg JSInt := ⟨neg⟩
instance : Mul JSInt := ⟨mul⟩
instance (n : ℕ) : OfNat JSInt n := ⟨int n⟩

end JSInt

/-- An implementation of the finite case of `Math.pow`: for a finite base other than zero and
an integer exponent other than zero it returns one of the two doubles that enclose the exact
power (the exact power itself when that is a double). -/
structure PowImpl where
  approx : ℚ → ℤ → JSNum
  faithful : ∀ (b : ℚ) (z : ℤ), approx b z = roundDown (b ^ z) ∨ approx b z = roundUp (b ^ z)

/-- The correctly rounded implementation: the double nearest to the exact power. -/
def PowImpl.nearest : PowImpl where
  approx := fun b z => roundToDouble (b ^ z)
  faithful := by
    intro b z
    have key : ∀ t : ℚ, roundHalfEven t = ⌊t⌋ ∨ roundHalfEven t = ⌈t⌉ := by
      intro t
      unfold roundHalfEven
      have hc : t - ⌊t⌋ ≠ 0 → ⌈t⌉ = ⌊t⌋ + 1 := by
        intro h
        rw [Int.ceil_eq_iff]
        push_cast
        have h0 : 0 ≤ t - ⌊t⌋ := sub_nonneg.mpr (Int.floor_le t)
        have h1 : t < ⌊t⌋ + 1 := Int.lt_floor_add_one t
        have h2 : 0 < t - ⌊t⌋ := lt_of_le_of_ne h0 (Ne.symm h)
        constructor <;> linarith
      split_ifs with h1 h2 h3
      · exact Or.inl rfl
      · exact Or.inr (hc (by linarith)).symm
      · exact Or.inl rfl
      · refine Or.inr (hc ?_).symm
        have : t - ⌊t⌋ = 1 / 2 := le_antisymm (not_lt.mp h2) (not_lt.mp h1)
        rw [this]
        norm_num
    show roundWith roundHalfEven (b ^ z) = roundWith (fun t => ⌊t⌋) (b ^ z)
      ∨ roundWith roundHalfEven (b ^ z) = roundWith (fun t => ⌈t⌉) (b ^ z)
    unfold roundWith roundedValue
    rcases key (b ^ z / 2 ^ ulpExponent (b ^ z)) with h | h
    · exact Or.inl (by simp only [h])
    · exact Or.inr (by simp only [h])

/-- The function `Math.pow(base, exponent)` for an integral, infinite or NaN exponent; a zero
base is `+0`. -/
def Math.pow (impl : PowImpl) (base : JSNum) (exponent : JSInt) : JSNum :=
  match exponent with
  | JSInt.nan => JSNum.nan
  | JSInt.inf negative =>
    match base with
    | JSNum.nan => JSNum.nan
    | JSNum.inf _ => if negative then JSNum.num 0 else JSNum.inf false
    | JSNum.num q =>
      if |q| = 1 then JSNum.nan
      else if decide (1 < |q|) = negative then JSNum.num 0
      else JSNum.inf false
  | JSInt.int z =>
    if z = 0 then JSNum.num 1
    else
      match base with
      | JSNum.nan => JSNum.nan
      | JSNum.inf negative =>
        if 0 < z then JSNum.inf (negative && decide (z % 2 = 1)) else JSNum.num 0
      | JSNum.num q =>
        if q = 0 then (if 0 < z then JSNum.num 0 else JSNum.inf false)
        else impl.approx q z

/-! ## Reading numbers from strings -/

/-- White space and line terminators, the characters `parseFloat` and `parseInt` skip at the
start of their argument. -/
def isWhiteSpace (c : Char) : Bool :=
  decide (c.toNat ∈ [0x09, 0x0A, 0x0B, 0x0C, 0x0D, 0x20, 0xA0, 0x1680, 0x2028, 0x2029,
    0x202F, 0x205F, 0x3000, 0xFEFF]) || (decide (0x2000 ≤ c.toNat) && decide (c.toNat ≤ 0x200A))

/-- Removal of leading white space. -/
def trimStart (cs : List Char) : List Char := cs.dropWhile isWhiteSpace

/-- A decimal digit. -/
def isDecimalDigit (c : Char) : Bool := decide (48 ≤ c.toNat) && decide (c.toNat ≤ 57)

/-- A hexadecimal digit. -/
def isHexDigit (c : Char) : Bool :=
  isDecimalDigit c || (decide (97 ≤ c.toNat) && decide (c.toNat ≤ 102))
    || (decide (65 ≤ c.toNat) && decide (c.toNat ≤ 70))

/-- Value of one digit in radix up to 16. -/
def digitValue (c : Char) : ℕ :=
  if isDecimalDigit c then c.toNat - 48
  else if 97 ≤ c.toNat then c.toNat - 87
  else c.toNat - 55

/-- Value of a run of digits in the given radix. -/
def digitsValue (radix : ℕ) (ds : List Char) : ℕ :=
  ds.foldl (fun acc c => radix * acc + digitValue c) 0

/-- Value of the longest `ExponentPart` (`e` or `E`, an optional sign, at least one digit) that
starts the input; `0` when there is none. -/
def exponentPart (cs : List Char) : ℤ :=
  match cs with
  | [] => 0
  | c :: rest =>
    if c = 'e' ∨ c = 'E' then
      match rest with
      | '+' :: ds =>
        if ds.takeWhile isDecimalDigit = [] then 0
        else (digitsValue 10 (ds.takeWhile isDecimalDigit) : ℤ)
      | '-' :: ds =>
        if ds.takeWhile isDecimalDigit = [] then 0
        else -(digitsValue 10 (ds.takeWhile isDecimalDigit) : ℤ)
      | ds =>
        if ds.takeWhile isDecimalDigit = [] then 0
        else (digitsValue 10 (ds.takeWhile isDecimalDigit) : ℤ)
    else 0

/-- Value of the longest `StrUnsignedDecimalLiteral` that starts the input, `NaN` when there is
none: `Infinity`, or digits with an optional fraction and an optional exponent, with at least
one digit before or after the point; the decimal value is rounded to a double. -/
def strUnsignedDecimalLiteral (cs : List Char) : JSNum :=
  match cs with
  | 'I' :: 'n' :: 'f' :: 'i' :: 'n' :: 'i' :: 't' :: 'y' :: _ => JSNum.inf false
  | _ =>
    let intPart := cs.takeWhile isDecimalDigit
    match cs.dropWhile isDecimalDigit with
    | '.' :: afterPoint =>
      let fracPart := afterPoint.takeWhile isDecimalDigit
      if intPart = [] ∧ fracPart = [] then JSNum.nan
      else roundToDouble (((digitsValue 10 intPart : ℚ)
        + (digitsValue 10 fracPart : ℚ) / 10 ^ fracPart.length)
        * 10 ^ exponentPart (afterPoint.dropWhile isDecimalDigit))
    | rest =>
      if intPart = [] then JSNum.nan
      else roundToDouble ((digitsValue 10 intPart : ℚ) * 10 ^ exponentPart rest)

/-- The global function `parseFloat`. -/
def parseFloat (s : String) : JSNum :=
  match trimStart s.toList with
  | '+' :: cs => strUnsignedDecimalLiteral cs
  | '-' :: cs => -(strUnsignedDecimalLiteral cs)
  | cs => strUnsignedDecimalLiteral cs

/-- The digits `parseInt` reads once the sign has been removed: hexadecimal after `0x` or `0X`,
decimal otherwise; the integer is rounded to a double. -/
def parseIntDigits (cs : List Char) : JSInt :=
  match cs with
  | '0' :: 'x' :: hs | '0' :: 'X' :: hs =>
    if hs.takeWhile isHexDigit = [] then JSInt.nan
    else JSInt.round (digitsValue 16 (hs.takeWhile isHexDigit))
  | _ =>
    if cs.takeWhile isDecimalDigit = [] then JSInt.nan
    else JSInt.round (digitsValue 10 (cs.takeWhile isDecimalDigit))

/-- The global function `parseInt`, called with no radix. -/
def parseInt (s : String) : JSInt :=
  match trimStart s.toList with
  | '+' :: cs => parseIntDigits cs
  | '-' :: cs => -(parseIntDigits cs)
  | cs => parseIntDigits cs

/-! ## Printing numbers -/

/-- Text produced by `toFixed`: the characters, or, for a finite value of magnitude at least
`10^21`, the value itself, which JavaScript prints in exponent form. -/
inductive FixedText where
  | text (s : String)
  | exponentForm (q : ℚ)
  deriving DecidableEq

/-- The integer `n` for which `n / 10^f - x` is as close to zero as possible, the larger one
when there are two, for `x ≥ 0`. -/
def nearestScaled (x : ℚ) (f : ℕ) : ℕ := ⌊x * 10 ^ f + 1 / 2⌋.toNat

/-- The digits of `n` with a decimal point before the last `f` of them, padded with zeros on
the left up to `f + 1` digits. -/
def fixedDigits (n f : ℕ) : String :=
  let m := Nat.toDigits 10 n
  if f = 0 then String.mk m
  else
    let m := if m.length ≤ f then List.replicate (f + 1 - m.length) '0' ++ m else m
    String.mk (m.take (m.length - f) ++ '.' :: m.drop (m.length - f))

/-- The method `Number.prototype.toFixed(f)`. -/
def toFixed (x : JSNum) (f : ℕ) : FixedText :=
  match x with
  | JSNum.nan => FixedText.text "NaN"
  | JSNum.inf false => FixedText.text "Infinity"
  | JSNum.inf true => FixedText.text "-Infinity"
  | JSNum.num q =>
    let s := if q < 0 then "-" else ""
    let x := if q < 0 then -q else q
    if 10 ^ 21 ≤ x then FixedText.exponentForm q
    else FixedText.text (s ++ fixedDigits (nearestScaled x f) f)

/-! ## The component -/

/-- The state `formData`: the four raw field values. -/
structure FormData where
  amount : String
  term : String
  rate : String
  type : String
  deriving DecidableEq

/-- The state `results` once set: the two printed figures. -/
structure Results where
  monthly : FixedText
  total : FixedText
  deriving DecidableEq

/-- An object with string-valued properties, in insertion order. -/
abbrev JSObject := List (String × String)

/-- Property assignment `o[k] = v`. -/
def JSObject.set (o : JSObject) (k v : String) : JSObject :=
  if o.any (fun p => p.1 == k) then o.map (fun p => if p.1 = k then (k, v) else p)
  else o ++ [(k, v)]

/-- Property read `o[k]`, `none` for `undefined`. -/
def JSObject.get (o : JSObject) (k : String) : Option String := o.lookup k

/-- The array `Object.keys(o)`. -/
def JSObject.keys (o : JSObject) : List String := o.map Prod.fst

/-- The three `useState` cells of the component. -/
structure State where
  formData : FormData
  results : Option Results
  errors : JSObject
  deriving DecidableEq

/-- The state at first render. -/
def initialState : State :=
  { formData := { amount := "", term := "", rate := "", type := "repayment" },
    results := none,
    errors := [] }

/-- The function `validateForm` (lines 16-23): the state after `setErrors(newErrors)` and the
returned boolean.  A string is falsy exactly when it is empty. -/
def validateForm (s : State) : State × Bool :=
  let newErrors : JSObject := []
  let newErrors :=
    if s.formData.amount = "" then newErrors.set "amount" "Mortgage amount is required."
    else newErrors
  let newErrors :=
    if s.formData.term = "" then newErrors.set "term" "Mortgage term is required."
    else newErrors
  let newErrors :=
    if s.formData.rate = "" then newErrors.set "rate" "Interest rate is required."
    else newErrors
  ({ s with errors := newErrors }, decide (newErrors.keys.length = 0))

/-- The divisor of the repayment branch (line 39): `1 - Math.pow(1 + monthlyRate, -months)`. -/
def annuityDenominator (impl : PowImpl) (monthlyRate : JSNum) (months : JSInt) : JSNum :=
  1 - Math.pow impl (1 + monthlyRate) (-months)

/-- The branch on `type` (lines 35-42): the value of `monthlyPayment`. -/
def monthlyPaymentOf (impl : PowImpl) (type : String) (principal monthlyRate : JSNum)
    (months : JSInt) : JSNum :=
  if type = "repayment" then
    (principal * monthlyRate) / annuityDenominator impl monthlyRate months
  else
    principal * monthlyRate

/-- The two numbers handed to `toFixed` (lines 30-46): `monthlyPayment` and
`monthlyPayment * months`, computed from the form fields. -/
def repaymentFigures (impl : PowImpl) (formData : FormData) : JSNum × JSNum :=
  let principal := parseFloat formData.amount
  let monthlyRate := parseFloat formData.rate / 100 / 12
  let months := parseInt formData.term * 12
  let monthlyPayment := monthlyPaymentOf impl formData.type principal monthlyRate months
  (monthlyPayment, monthlyPayment * months.toNum)

/-- The submit handler `calculateRepayment` (lines 26-48). -/
def calculateRepayment (impl : PowImpl) (s : State) : State :=
  let validated := validateForm s
  if !validated.2 then validated.1
  else
    let figures := repaymentFigures impl s.formData
    { validated.1 with
      results := some { monthly := toFixed figures.1 2, total := toFixed figures.2 2 } }

/-! ## The algorithm of the specification, over exact arithmetic -/

namespace Spec

/-- Step 1: `monthlyRate = annualRatePercent / 100 / 12`. -/
def monthlyRate (annualRatePercent : ℚ) : ℚ := annualRatePercent / 100 / 12

/-- Step 2: `numberOfMonths = termYears * 12`. -/
def numberOfMonths (termYears : ℤ) : ℤ := termYears * 12

/-- Steps 3 and 4: the annuity formula for the type `"repayment"`, `principal * monthlyRate`
otherwise; `none` where the annuity formula has no value in exact arithmetic (a zero divisor,
or zero raised to a negative power). -/
def monthlyPayment (type : String) (principal annualRatePercent : ℚ) (termYears : ℤ) :
    Option ℚ :=
  let r := monthlyRate annualRatePercent
  let n := numberOfMonths termYears
  if type = "repayment" then
    if (1 + r = 0 ∧ 0 < n) ∨ 1 - (1 + r) ^ (-n) = 0 then none
    else some ((principal * r) / (1 - (1 + r) ^ (-n)))
  else some (principal * r)

/-- Step 5: `totalRepayment = monthlyPayment * numberOfMonths`, on the unrounded payment. -/
def totalRepayment (type : String) (principal annualRatePercent : ℚ) (termYears : ℤ) :
    Option ℚ :=
  (monthlyPayment type principal annualRatePercent termYears).map
    (fun m => m * numberOfMonths termYears)

/-- The annuity formula of step 3 in exact arithmetic, on a monthly rate and a number of months:
`(principal * monthlyRate) / (1 - (1 + monthlyRate) ^ (-numberOfMonths))`. -/
def annuity (principal monthlyRate : ℚ) (numberOfMonths : ℤ) : ℚ :=
  (principal * monthlyRate) / (1 - (1 + monthlyRate) ^ (-numberOfMonths))

/-- Steps 1 to 5 carried out in double arithmetic: the same operations in the same order, each
exact result rounded to a double, `Math.pow` for the power. -/
def figuresInDoubles (impl : PowImpl) (type : String) (principal annualRatePercent : JSNum)
    (termYears : JSInt) : JSNum × JSNum :=
  let monthlyRate := annualRatePercent / 100 / 12
  let numberOfMonths := termYears * 12
  let monthlyPayment :=
    if type = "repayment" then
      (principal * monthlyRate) / (1 - Math.pow impl (1 + monthlyRate) (-numberOfMonths))
    else principal * monthlyRate
  (monthlyPayment, monthlyPayment * numberOfMonths.toNum)

/-- The outstanding balance after `k` level payments of `payment`: `B_0 = principal`,
`B_(k+1) = B_k * (1 + rate) - payment`. -/
def balance (principal rate payment : ℚ) : ℕ → ℚ
  | 0 => principal
  | k + 1 => balance principal rate payment k * (1 + rate) - payment

end Spec

/-! ## Reading the results back, and the worked scenarios -/

/-- The number a printed figure denotes when it is read back with `parseFloat`. -/
def FixedText.value : FixedText → JSNum
  | FixedText.text s => parseFloat s
  | FixedText.exponentForm q => JSNum.num q

/-- The form of scenarios 1 and 2: amount 100000, term 25, rate 5, with the given type. -/
def scenarioForm (type : String) : FormData :=
  { amount := "100000", term := "25", rate := "5", type := type }

/-! ## The rounding -/

theorem two_zpow_pos (k : ℤ) : (0 : ℚ) < 2 ^ k := zpow_pos (by norm_num) k

theorem ulpExponent_zero : ulpExponent 0 = -1074 := by simp [ulpExponent]

theorem ulpExponent_ge (x : ℚ) : -1074 ≤ ulpExponent x := by
  unfold ulpExponent
  split_ifs
  · exact le_refl _
  · have := le_max_right (Int.log 2 |x|) (-1022)
    omega

theorem abs_lt_of_ulpExponent (x : ℚ) : |x| < 2 ^ (ulpExponent x + 53) := by
  by_cases hx : x = 0
  · rw [hx, abs_zero]
    exact two_zpow_pos _
  · unfold ulpExponent
    rw [if_neg hx]
    have h1 : |x| < ((2 : ℕ) : ℚ) ^ (Int.log 2 |x| + 1) :=
      Int.lt_zpow_succ_log_self (by norm_num) |x|
    have h2 : ((2 : ℕ) : ℚ) ^ (Int.log 2 |x| + 1)
        ≤ (2 : ℚ) ^ (max (Int.log 2 |x|) (-1022) - 52 + 53) := by
      have : Int.log 2 |x| + 1 ≤ max (Int.log 2 |x|) (-1022) - 52 + 53 := by
        have := le_max_left (Int.log 2 |x|) (-1022)
        omega
      exact_mod_cast zpow_le_zpow_right₀ (by norm_num : (1 : ℚ) ≤ 2) this
    exact lt_of_lt_of_le h1 h2

theorem le_abs_of_ulpExponent (x : ℚ) (h : -1074 < ulpExponent x) :
    2 ^ (ulpExponent x + 52) ≤ |x| := by
  by_cases hx : x = 0
  · rw [hx, ulpExponent_zero] at h
    omega
  · unfold ulpExponent at h ⊢
    rw [if_neg hx] at h ⊢
    have hmax : max (Int.log 2 |x|) (-1022) = Int.log 2 |x| := by
      rcases le_total (Int.log 2 |x|) (-1022) with hle | hle
      · rw [max_eq_right hle] at h
        omega
      · exact max_eq_left hle
    rw [hmax]
    have h1 : ((2 : ℕ) : ℚ) ^ Int.log 2 |x| ≤ |x| :=
      Int.zpow_log_le_self (by norm_num) (abs_pos.mpr hx)
    have : Int.log 2 |x| - 52 + 52 = Int.log 2 |x| := by omega
    rw [this]
    exact_mod_cast h1

theorem ulpExponent_mono {x y : ℚ} (hx : 0 ≤ x) (hxy : x ≤ y) :
    ulpExponent x ≤ ulpExponent y := by
  by_cases hx0 : x = 0
  · rw [hx0, ulpExponent_zero]
    exact ulpExponent_ge y
  · have hxpos : 0 < x := lt_of_le_of_ne hx (Ne.symm hx0)
    have hy0 : y ≠ 0 := ne_of_gt (lt_of_lt_of_le hxpos hxy)
    unfold ulpExponent
    rw [if_neg hx0, if_neg hy0, abs_of_pos hxpos, abs_of_pos (lt_of_lt_of_le hxpos hxy)]
    have := Int.log_mono_right (b := 2) hxpos hxy
    have := max_le_max_right (-1022) this
    omega

/-- The largest exponent a value below `2 ^ (j + 53)` can have. -/
theorem ulpExponent_le_of_lt (a : ℚ) (j : ℤ) (hj : -1074 ≤ j) (h : |a| < 2 ^ (j + 53)) :
    ulpExponent a ≤ j := by
  by_cases ha : a = 0
  · rw [ha, ulpExponent_zero]
    exact hj
  · unfold ulpExponent
    rw [if_neg ha]
    have hlog : Int.log 2 |a| < j + 53 :=
      (Int.lt_zpow_iff_log_lt (b := 2) (by norm_num) (abs_pos.mpr ha)).mp (by exact_mod_cast h)
    have : max (Int.log 2 |a|) (-1022) ≤ j + 52 := max_le (by omega) (by omega)
    omega

/-- What the rounding asks of the choice of significand: monotone, and the identity on
integers. -/
theorem roundHalfEven_near (t : ℚ) : |t - roundHalfEven t| ≤ 1 / 2 := by
  have h0 : 0 ≤ t - ⌊t⌋ := sub_nonneg.mpr (Int.floor_le t)
  have h1 : t - ⌊t⌋ < 1 := by linarith [Int.lt_floor_add_one t]
  unfold roundHalfEven
  rw [abs_le]
  split_ifs with ha hb hc <;> push_cast <;> constructor <;> linarith

theorem roundHalfEven_intCast (n : ℤ) : roundHalfEven (n : ℚ) = n := by
  unfold roundHalfEven
  simp

theorem roundHalfEven_mono {t u : ℚ} (h : t ≤ u) : roundHalfEven t ≤ roundHalfEven u := by
  by_contra hcon
  push_neg at hcon
  have hcon2 : (roundHalfEven u : ℚ) + 1 ≤ roundHalfEven t := by exact_mod_cast hcon
  have ht := abs_le.mp (roundHalfEven_near t)
  have hu := abs_le.mp (roundHalfEven_near u)
  have htu : t = u := by linarith [ht.1, hu.2]
  rw [htu] at hcon
  exact lt_irrefl _ hcon

/-- The two properties of a choice of significand the rounding lemmas use. -/
theorem pick_bounds {pick : ℚ → ℤ} (hmono : ∀ t u : ℚ, t ≤ u → pick t ≤ pick u)
    (hint : ∀ n : ℤ, pick (n : ℚ) = n) (t : ℚ) : ⌊t⌋ ≤ pick t ∧ pick t ≤ ⌈t⌉ := by
  constructor
  · have := hmono _ _ (Int.floor_le t)
    rwa [hint] at this
  · have := hmono _ _ (Int.le_ceil t)
    rwa [hint] at this

theorem roundedValue_nonneg {pick : ℚ → ℤ} (hmono : ∀ t u : ℚ, t ≤ u → pick t ≤ pick u)
    (hint : ∀ n : ℤ, pick (n : ℚ) = n) {x : ℚ} (hx : 0 ≤ x) : 0 ≤ roundedValue pick x := by
  unfold roundedValue
  have h0 : (0 : ℚ) ≤ x / 2 ^ ulpExponent x := div_nonneg hx (le_of_lt (two_zpow_pos _))
  have h1 : (0 : ℤ) ≤ pick (x / 2 ^ ulpExponent x) := by
    have := hmono _ _ h0
    have h2 := hint 0
    simp only [Int.cast_zero] at h2
    rwa [h2] at this
  exact mul_nonneg (by exact_mod_cast h1) (le_of_lt (two_zpow_pos _))

theorem roundedValue_mono {pick : ℚ → ℤ} (hmono : ∀ t u : ℚ, t ≤ u → pick t ≤ pick u)
    (hint : ∀ n : ℤ, pick (n : ℚ) = n) {x y : ℚ} (hx : 0 ≤ x) (hxy : x ≤ y) :
    roundedValue pick x ≤ roundedValue pick y := by
  have he := ulpExponent_mono hx hxy
  have hy : 0 ≤ y := le_trans hx hxy
  rcases eq_or_lt_of_le he with heq | hlt
  · unfold roundedValue
    rw [heq]
    have h1 : x / 2 ^ ulpExponent y ≤ y / 2 ^ ulpExponent y :=
      div_le_div_of_nonneg_right hxy (le_of_lt (two_zpow_pos _))
    have h2 := hmono _ _ h1
    exact mul_le_mul_of_nonneg_right (by exact_mod_cast h2) (le_of_lt (two_zpow_pos _))
  · have hxv : roundedValue pick x ≤ 2 ^ (ulpExponent x + 53) := by
      unfold roundedValue
      have h1 : x / 2 ^ ulpExponent x ≤ ((2 ^ 53 : ℤ) : ℚ) := by
        rw [div_le_iff₀ (two_zpow_pos _)]
        have := abs_lt_of_ulpExponent x
        rw [abs_of_nonneg hx, zpow_add₀ (by norm_num : (2 : ℚ) ≠ 0)] at this
        push_cast
        have h53 : (2 : ℚ) ^ (53 : ℤ) = 2 ^ 53 := by norm_cast
        rw [h53] at this
        linarith
      have h2 := hmono _ _ h1
      rw [hint] at h2
      have h3 : ((pick (x / 2 ^ ulpExponent x) : ℤ) : ℚ) ≤ 2 ^ 53 := by exact_mod_cast h2
      rw [zpow_add₀ (by norm_num : (2 : ℚ) ≠ 0), mul_comm ((2 : ℚ) ^ ulpExponent x)]
      have h53 : (2 : ℚ) ^ (53 : ℤ) = 2 ^ 53 := by norm_cast
      rw [h53]
      exact mul_le_mul_of_nonneg_right h3 (le_of_lt (two_zpow_pos _))
    have hyv : 2 ^ (ulpExponent y + 52) ≤ roundedValue pick y := by
      unfold roundedValue
      have hlow := le_abs_of_ulpExponent y (lt_of_le_of_lt (ulpExponent_ge x) hlt)
      rw [abs_of_nonneg hy] at hlow
      have h1 : ((2 ^ 52 : ℤ) : ℚ) ≤ y / 2 ^ ulpExponent y := by
        rw [le_div_iff₀ (two_zpow_pos _)]
        rw [zpow_add₀ (by norm_num : (2 : ℚ) ≠ 0)] at hlow
        push_cast
        have h52 : (2 : ℚ) ^ (52 : ℤ) = 2 ^ 52 := by norm_cast
        rw [h52] at hlow
        linarith
      have h2 := hmono _ _ h1
      rw [hint] at h2
      have h3 : (2 : ℚ) ^ 52 ≤ ((pick (y / 2 ^ ulpExponent y) : ℤ) : ℚ) := by exact_mod_cast h2
      rw [zpow_add₀ (by norm_num : (2 : ℚ) ≠ 0), mul_comm ((2 : ℚ) ^ ulpExponent y)]
      have h52 : (2 : ℚ) ^ (52 : ℤ) = 2 ^ 52 := by norm_cast
      rw [h52]
      exact mul_le_mul_of_nonneg_right h3 (le_of_lt (two_zpow_pos _))
    have hmid : (2 : ℚ) ^ (ulpExponent x + 53) ≤ 2 ^ (ulpExponent y + 52) :=
      zpow_le_zpow_right₀ (by norm_num) (by omega)
    linarith

/-- A multiple of a power of two at or above the unit in the last place is left unchanged. -/
theorem roundedValue_fix {pick : ℚ → ℤ} (hint : ∀ n : ℤ, pick (n : ℚ) = n) (a : ℚ) (m j : ℤ)
    (ha : a = m * 2 ^ j) (hj : ulpExponent a ≤ j) : roundedValue pick a = a := by
  unfold roundedValue
  obtain ⟨k, hk⟩ := Int.eq_ofNat_of_zero_le (sub_nonneg.mpr hj)
  have hjk : j = ulpExponent a + k := by omega
  have hpow : (2 : ℚ) ^ j = 2 ^ k * 2 ^ ulpExponent a := by
    rw [hjk, zpow_add₀ (by norm_num : (2 : ℚ) ≠ 0), zpow_natCast, mul_comm]
  have hdiv : a / 2 ^ ulpExponent a = ((m * 2 ^ k : ℤ) : ℚ) := by
    rw [div_eq_iff (ne_of_gt (two_zpow_pos _))]
    conv_lhs => rw [ha, hpow]
    push_cast
    ring
  rw [hdiv, hint]
  conv_rhs => rw [ha, hpow]
  push_cast
  ring

/-- The rounded value of a non-negative number is a multiple of a power of two at or above its
own unit in the last place. -/
theorem roundedValue_rep {pick : ℚ → ℤ} (hmono : ∀ t u : ℚ, t ≤ u → pick t ≤ pick u)
    (hint : ∀ n : ℤ, pick (n : ℚ) = n) {x : ℚ} (hx : 0 ≤ x) :
    ∃ m j : ℤ, roundedValue pick x = m * 2 ^ j ∧ ulpExponent (roundedValue pick x) ≤ j := by
  have hv0 := roundedValue_nonneg hmono hint hx
  have h53 : (2 : ℚ) ^ (53 : ℤ) = 2 ^ 53 := by norm_cast
  have hs : pick (x / 2 ^ ulpExponent x) ≤ 2 ^ 53 := by
    have h1 : x / 2 ^ ulpExponent x ≤ ((2 ^ 53 : ℤ) : ℚ) := by
      rw [div_le_iff₀ (two_zpow_pos _)]
      have := abs_lt_of_ulpExponent x
      rw [abs_of_nonneg hx, zpow_add₀ (by norm_num : (2 : ℚ) ≠ 0), h53] at this
      push_cast
      linarith
    have h2 := hmono _ _ h1
    rwa [hint] at h2
  rcases lt_or_eq_of_le hs with hlt | heq
  · refine ⟨pick (x / 2 ^ ulpExponent x), ulpExponent x, rfl, ?_⟩
    apply ulpExponent_le_of_lt _ _ (ulpExponent_ge x)
    rw [abs_of_nonneg hv0]
    unfold roundedValue
    rw [zpow_add₀ (by norm_num : (2 : ℚ) ≠ 0), h53, mul_comm ((2 : ℚ) ^ ulpExponent x)]
    have h3 : ((pick (x / 2 ^ ulpExponent x) : ℤ) : ℚ) < 2 ^ 53 := by exact_mod_cast hlt
    exact mul_lt_mul_of_pos_right h3 (two_zpow_pos _)
  · have hval : roundedValue pick x = ((2 ^ 52 : ℤ) : ℚ) * 2 ^ (ulpExponent x + 1) := by
      unfold roundedValue
      rw [heq, zpow_add₀ (by norm_num : (2 : ℚ) ≠ 0)]
      push_cast
      ring
    refine ⟨2 ^ 52, ulpExponent x + 1, hval, ?_⟩
    apply ulpExponent_le_of_lt _ _ (by have := ulpExponent_ge x; omega)
    rw [abs_of_nonneg hv0, hval]
    have : ulpExponent x + 1 + 53 = (ulpExponent x + 1) + 53 := rfl
    rw [zpow_add₀ (by norm_num : (2 : ℚ) ≠ 0) (ulpExponent x + 1) 53, h53,
      mul_comm ((2 : ℚ) ^ (ulpExponent x + 1))]
    push_cast
    exact mul_lt_mul_of_pos_right (by norm_num) (two_zpow_pos _)

/-- Rounding what is already rounded changes nothing. -/
theorem roundedValue_idem {pick pick2 : ℚ → ℤ} (hmono : ∀ t u : ℚ, t ≤ u → pick t ≤ pick u)
    (hint : ∀ n : ℤ, pick (n : ℚ) = n) (hint2 : ∀ n : ℤ, pick2 (n : ℚ) = n) {x : ℚ}
    (hx : 0 ≤ x) : roundedValue pick2 (roundedValue pick x) = roundedValue pick x := by
  obtain ⟨m, j, hm, hj⟩ := roundedValue_rep hmono hint hx
  exact roundedValue_fix hint2 _ m j hm hj

/-! ## The rounded operations -/

theorem JSNum.le_refl_num (a : ℚ) : JSNum.le (JSNum.num a) (JSNum.num a) := by
  show a ≤ a
  exact le_refl a

/-- A non-negative value rounds to `Infinity` or to a non-negative finite value. -/
theorem roundWith_nonneg {pick : ℚ → ℤ} (hmono : ∀ t u : ℚ, t ≤ u → pick t ≤ pick u)
    (hint : ∀ n : ℤ, pick (n : ℚ) = n) {x : ℚ} (hx : 0 ≤ x) :
    roundWith pick x = JSNum.inf false
      ∨ (roundWith pick x = JSNum.num (roundedValue pick x) ∧ 0 ≤ roundedValue pick x
          ∧ roundedValue pick x < 2 ^ 1024) := by
  have hv := roundedValue_nonneg hmono hint hx
  unfold roundWith
  by_cases h : 2 ^ 1024 ≤ |roundedValue pick x|
  · left
    rw [if_pos h]
    simp [not_lt.mpr hx]
  · right
    rw [if_neg h]
    refine ⟨rfl, hv, ?_⟩
    rw [abs_of_nonneg hv] at h
    exact not_le.mp h

/-- Rounding is monotone on non-negative values. -/
theorem roundWith_mono {pick : ℚ → ℤ} (hmono : ∀ t u : ℚ, t ≤ u → pick t ≤ pick u)
    (hint : ∀ n : ℤ, pick (n : ℚ) = n) {x y : ℚ} (hx : 0 ≤ x) (hxy : x ≤ y) :
    JSNum.le (roundWith pick x) (roundWith pick y) := by
  have hv := roundedValue_mono hmono hint hx hxy
  rcases roundWith_nonneg hmono hint (le_trans hx hxy) with hy | ⟨hy, hy0, hy1⟩
  · rw [hy]
    rcases roundWith_nonneg hmono hint hx with hx1 | ⟨hx1, _, _⟩
    · rw [hx1]
      exact Or.inr rfl
    · rw [hx1]
      exact (rfl : false = false)
  · rcases roundWith_nonneg hmono hint hx with hx1 | ⟨hx1, _, _⟩
    · exfalso
      unfold roundWith at hx1
      have hvx := roundedValue_nonneg hmono hint hx
      by_cases h : 2 ^ 1024 ≤ |roundedValue pick x|
      · rw [abs_of_nonneg hvx] at h
        linarith
      · rw [if_neg h] at hx1
        exact JSNum.noConfusion hx1
    · rw [hx1, hy]
      exact hv

/-- A finite double is left unchanged by every rounding. -/
theorem roundWith_fix {pick : ℚ → ℤ} (hint : ∀ n : ℤ, pick (n : ℚ) = n) (a : ℚ) (m j : ℤ)
    (ha : a = m * 2 ^ j) (hj : ulpExponent a ≤ j) (hfin : |a| < 2 ^ 1024) :
    roundWith pick a = JSNum.num a := by
  unfold roundWith
  rw [roundedValue_fix hint a m j ha hj, if_neg (not_le.mpr hfin)]

/-- A finite result of a rounding of a non-negative value is left unchanged by every
rounding. -/
theorem roundWith_idem {pick pick2 : ℚ → ℤ} (hmono : ∀ t u : ℚ, t ≤ u → pick t ≤ pick u)
    (hint : ∀ n : ℤ, pick (n : ℚ) = n) (hint2 : ∀ n : ℤ, pick2 (n : ℚ) = n) {x a : ℚ}
    (hx : 0 ≤ x) (h : roundWith pick x = JSNum.num a) : roundWith pick2 a = JSNum.num a := by
  rcases roundWith_nonneg hmono hint hx with h1 | ⟨h1, _, hlt⟩
  · rw [h1] at h
    exact JSNum.noConfusion h
  · rw [h1] at h
    have ha : roundedValue pick x = a := JSNum.num.inj h
    have hv := roundedValue_nonneg hmono hint hx
    unfold roundWith
    rw [← ha, roundedValue_idem hmono hint hint2 hx, if_neg]
    rw [abs_of_nonneg hv]
    exact not_le.mpr hlt

theorem ulpExponent_one : ulpExponent 1 = -52 := by
  unfold ulpExponent
  rw [if_neg one_ne_zero, abs_one, Int.log_one_right]
  norm_num

theorem roundWith_zero {pick : ℚ → ℤ} (hint : ∀ n : ℤ, pick (n : ℚ) = n) :
    roundWith pick 0 = JSNum.num 0 :=
  roundWith_fix hint 0 0 0 (by simp) (by rw [ulpExponent_zero]; norm_num) (by norm_num)

theorem roundWith_one {pick : ℚ → ℤ} (hint : ∀ n : ℤ, pick (n : ℚ) = n) :
    roundWith pick 1 = JSNum.num 1 :=
  roundWith_fix hint 1 1 0 (by simp) (by rw [ulpExponent_one]; norm_num) (by norm_num)

/-- A value between 0 and 1 rounds to a finite value between 0 and 1. -/
theorem roundWith_unit {pick : ℚ → ℤ} (hmono : ∀ t u : ℚ, t ≤ u → pick t ≤ pick u)
    (hint : ∀ n : ℤ, pick (n : ℚ) = n) {x : ℚ} (h0 : 0 ≤ x) (h1 : x ≤ 1) :
    ∃ q : ℚ, roundWith pick x = JSNum.num q ∧ 0 ≤ q ∧ q ≤ 1 := by
  have hle := roundWith_mono hmono hint h0 h1
  rw [roundWith_one hint] at hle
  rcases roundWith_nonneg hmono hint h0 with h | ⟨h, hq0, _⟩
  · rw [h] at hle
    exact absurd hle (fun hh => Bool.noConfusion (hh : false = true))
  · rw [h] at hle
    exact ⟨_, h, hq0, hle⟩

theorem floor_mono_int : ∀ t u : ℚ, t ≤ u → (⌊t⌋ : ℤ) ≤ ⌊u⌋ := fun _ _ h => Int.floor_le_floor h

theorem ceil_mono_int : ∀ t u : ℚ, t ≤ u → (⌈t⌉ : ℤ) ≤ ⌈u⌉ := fun _ _ h => Int.ceil_le_ceil h

theorem floor_intCast_rat : ∀ n : ℤ, (⌊(n : ℚ)⌋ : ℤ) = n := fun n => Int.floor_intCast n

theorem ceil_intCast_rat : ∀ n : ℤ, (⌈(n : ℚ)⌉ : ℤ) = n := fun n => Int.ceil_intCast n

theorem JSNum.one_eq : (1 : JSNum) = JSNum.num 1 := by
  show JSNum.num ((1 : ℕ) : ℚ) = JSNum.num 1
  simp

theorem JSNum.ofNat_eq_num (n : ℕ) [n.AtLeastTwo] :
    (OfNat.ofNat n : JSNum) = JSNum.num (OfNat.ofNat n) := by
  show JSNum.num ((OfNat.ofNat n : ℕ) : ℚ) = JSNum.num (OfNat.ofNat n)
  simp

theorem JSInt.ofNat_eq_int (n : ℕ) [n.AtLeastTwo] :
    (OfNat.ofNat n : JSInt) = JSInt.int (OfNat.ofNat n) := by
  show JSInt.int ((OfNat.ofNat n : ℕ) : ℤ) = JSInt.int (OfNat.ofNat n)
  simp

theorem JSNum.num_add (a b : ℚ) : JSNum.num a + JSNum.num b = roundToDouble (a + b) := rfl

theorem JSNum.num_sub (a b : ℚ) : JSNum.num a - JSNum.num b = roundToDouble (a - b) := by
  show JSNum.add (JSNum.num a) (JSNum.neg (JSNum.num b)) = _
  simp [JSNum.add, JSNum.neg, sub_eq_add_neg]

theorem JSNum.num_mul (a b : ℚ) : JSNum.num a * JSNum.num b = roundToDouble (a * b) := rfl

theorem JSNum.num_div (a b : ℚ) (hb : b ≠ 0) :
    JSNum.num a / JSNum.num b = roundToDouble (a / b) := by
  show JSNum.div (JSNum.num a) (JSNum.num b) = _
  simp [JSNum.div, hb]

theorem JSNum.neg_num (a : ℚ) : -JSNum.num a = JSNum.num (-a) := rfl

theorem JSInt.neg_int (z : ℤ) : -JSInt.int z = JSInt.int (-z) := rfl

theorem JSInt.int_mul (a b : ℤ) : JSInt.int a * JSInt.int b = JSInt.round (a * b) := rfl

theorem JSNum.nan_mul (x : JSNum) : JSNum.nan * x = JSNum.nan := by
  show JSNum.mul JSNum.nan x = _
  cases x <;> rfl

theorem JSNum.nan_div (x : JSNum) : JSNum.nan / x = JSNum.nan := by
  show JSNum.div JSNum.nan x = _
  cases x <;> rfl

theorem JSNum.div_nan (x : JSNum) : x / JSNum.nan = JSNum.nan := by
  show JSNum.div x JSNum.nan = _
  cases x <;> rfl

theorem JSNum.sub_nan (x : JSNum) : x - JSNum.nan = JSNum.nan := by
  show JSNum.add x (JSNum.neg JSNum.nan) = _
  cases x <;> rfl

theorem JSNum.zero_div_zero : JSNum.num 0 / JSNum.num 0 = JSNum.nan := by
  show JSNum.div (JSNum.num 0) (JSNum.num 0) = _
  simp [JSNum.div]

/-! ## Evaluating the rounding at a given value -/

theorem ulpExponent_of_bounds (x : ℚ) (k : ℤ) (hk : -1022 ≤ k) (h1 : 2 ^ k ≤ x)
    (h2 : x < 2 ^ (k + 1)) : ulpExponent x = k - 52 := by
  have hpos : 0 < x := lt_of_lt_of_le (two_zpow_pos k) h1
  have hlog : Int.log 2 |x| = k := by
    rw [abs_of_pos hpos]
    apply le_antisymm
    · have := (Int.lt_zpow_iff_log_lt (b := 2) (by norm_num) hpos (x := k + 1)).mp
        (by exact_mod_cast h2)
      omega
    · exact (Int.zpow_le_iff_le_log (b := 2) (by norm_num) hpos).mp (by exact_mod_cast h1)
  unfold ulpExponent
  rw [if_neg (ne_of_gt hpos), hlog, max_eq_left hk]

theorem ulpExponent_of_small (x : ℚ) (h0 : 0 < x) (h : x < 2 ^ (-1022 : ℤ)) :
    ulpExponent x = -1074 := by
  have hlog : Int.log 2 |x| < -1022 := by
    rw [abs_of_pos h0]
    exact (Int.lt_zpow_iff_log_lt (b := 2) (by norm_num) h0).mp (by exact_mod_cast h)
  unfold ulpExponent
  rw [if_neg (ne_of_gt h0), max_eq_right (le_of_lt hlog)]
  norm_num

theorem roundHalfEven_of_near (t : ℚ) (n : ℤ) (hlo : (n : ℚ) - 1 / 2 < t)
    (hhi : t < n + 1 / 2) : roundHalfEven t = n := by
  unfold roundHalfEven
  by_cases hle : (n : ℚ) ≤ t
  · have hf : ⌊t⌋ = n := by
      rw [Int.floor_eq_iff]
      exact ⟨hle, by linarith⟩
    rw [hf, if_pos (by linarith)]
  · push_neg at hle
    have hf : ⌊t⌋ = n - 1 := by
      rw [Int.floor_eq_iff]
      push_cast
      exact ⟨by linarith, by linarith⟩
    rw [hf]
    push_cast
    rw [if_neg (by linarith), if_pos (by linarith)]
    ring

theorem roundWith_of_scaled (pick : ℚ → ℤ) (x : ℚ) (e n : ℤ) (y : ℚ)
    (he : ulpExponent x = e) (hn : pick (x / 2 ^ e) = n) (hy : y = n * 2 ^ e)
    (hy0 : 0 ≤ y) (hfin : y < 2 ^ 1024) : roundWith pick x = JSNum.num y := by
  unfold roundWith roundedValue
  rw [he, hn, ← hy, abs_of_nonneg hy0, if_neg (not_le.mpr hfin)]

/-- The nearest double of a positive value in the normal range. -/
theorem roundToDouble_of_pos (x : ℚ) (k n : ℤ) (y : ℚ) (hk : -1022 ≤ k) (h1 : 2 ^ k ≤ x)
    (h2 : x < 2 ^ (k + 1)) (hlo : (n : ℚ) - 1 / 2 < x / 2 ^ (k - 52))
    (hhi : x / 2 ^ (k - 52) < n + 1 / 2) (hy : y = n * 2 ^ (k - 52)) (hy0 : 0 ≤ y)
    (hfin : y < 2 ^ 1024) : roundToDouble x = JSNum.num y :=
  roundWith_of_scaled _ x (k - 52) n y (ulpExponent_of_bounds x k hk h1 h2)
    (roundHalfEven_of_near _ n hlo hhi) hy hy0 hfin

/-- The nearest double of a positive value in the subnormal range. -/
theorem roundToDouble_of_small (x : ℚ) (n : ℤ) (y : ℚ) (h0 : 0 < x)
    (h : x < 2 ^ (-1022 : ℤ)) (hlo : (n : ℚ) - 1 / 2 < x / 2 ^ (-1074 : ℤ))
    (hhi : x / 2 ^ (-1074 : ℤ) < n + 1 / 2) (hy : y = n * 2 ^ (-1074 : ℤ)) (hy0 : 0 ≤ y)
    (hfin : y < 2 ^ 1024) : roundToDouble x = JSNum.num y :=
  roundWith_of_scaled _ x (-1074) n y (ulpExponent_of_small x h0 h)
    (roundHalfEven_of_near _ n hlo hhi) hy hy0 hfin

/-- The double below a positive value in the normal range. -/
theorem roundDown_of_pos (x : ℚ) (k n : ℤ) (y : ℚ) (hk : -1022 ≤ k) (h1 : 2 ^ k ≤ x)
    (h2 : x < 2 ^ (k + 1)) (hlo : (n : ℚ) ≤ x / 2 ^ (k - 52))
    (hhi : x / 2 ^ (k - 52) < n + 1) (hy : y = n * 2 ^ (k - 52)) (hy0 : 0 ≤ y)
    (hfin : y < 2 ^ 1024) : roundDown x = JSNum.num y :=
  roundWith_of_scaled _ x (k - 52) n y (ulpExponent_of_bounds x k hk h1 h2)
    (Int.floor_eq_iff.mpr ⟨hlo, hhi⟩) hy hy0 hfin

/-- The double above a positive value in the normal range. -/
theorem roundUp_of_pos (x : ℚ) (k n : ℤ) (y : ℚ) (hk : -1022 ≤ k) (h1 : 2 ^ k ≤ x)
    (h2 : x < 2 ^ (k + 1)) (hlo : (n : ℚ) - 1 < x / 2 ^ (k - 52))
    (hhi : x / 2 ^ (k - 52) ≤ n) (hy : y = n * 2 ^ (k - 52)) (hy0 : 0 ≤ y)
    (hfin : y < 2 ^ 1024) : roundUp x = JSNum.num y :=
  roundWith_of_scaled _ x (k - 52) n y (ulpExponent_of_bounds x k hk h1 h2)
    (Int.ceil_eq_iff.mpr ⟨hlo, hhi⟩) hy hy0 hfin

/-- A significand below `2^53` times a power of two in range is a double. -/
theorem roundWith_dyadic {pick : ℚ → ℤ} (hint : ∀ n : ℤ, pick (n : ℚ) = n) (a : ℚ) (m j : ℤ)
    (ha : a = m * 2 ^ j) (hj : -1074 ≤ j) (hm : |a| < 2 ^ (j + 53)) (hfin : |a| < 2 ^ 1024) :
    roundWith pick a = JSNum.num a :=
  roundWith_fix hint a m j ha (ulpExponent_le_of_lt a j hj hm) hfin

/-- An integer below `2^53` in magnitude is a double. -/
theorem roundToDouble_intCast (z : ℤ) (hz : |z| < 2 ^ 53) :
    roundToDouble (z : ℚ) = JSNum.num z := by
  have habs : |(z : ℚ)| < 2 ^ 53 := by exact_mod_cast hz
  refine roundWith_dyadic roundHalfEven_intCast (z : ℚ) z 0 (by simp) (by norm_num) ?_ ?_
  · have : (2 : ℚ) ^ ((0 : ℤ) + 53) = 2 ^ 53 := by norm_num
    rw [this]
    exact habs
  · exact lt_trans habs (by norm_num)

theorem JSInt.round_of_small (z : ℤ) (hz : |z| < 2 ^ 53) : JSInt.round z = JSInt.int z := by
  unfold JSInt.round
  rw [roundToDouble_intCast z hz]
  simp

/-! ## The rounding to the nearest double -/

theorem roundToDouble_zero : roundToDouble 0 = JSNum.num 0 :=
  roundWith_zero roundHalfEven_intCast

theorem roundToDouble_one : roundToDouble 1 = JSNum.num 1 :=
  roundWith_one roundHalfEven_intCast

/-- A non-negative value rounds to `Infinity` or to a non-negative finite value. -/
theorem roundToDouble_nonneg {x : ℚ} (hx : 0 ≤ x) :
    roundToDouble x = JSNum.inf false ∨ ∃ a : ℚ, roundToDouble x = JSNum.num a ∧ 0 ≤ a := by
  rcases roundWith_nonneg (fun _ _ h => roundHalfEven_mono h) roundHalfEven_intCast hx with
    h | ⟨h, h0, _⟩
  · exact Or.inl h
  · exact Or.inr ⟨_, h, h0⟩

/-- Rounding to the nearest double is monotone on non-negative values. -/
theorem roundToDouble_mono {x y : ℚ} (hx : 0 ≤ x) (hxy : x ≤ y) :
    JSNum.le (roundToDouble x) (roundToDouble y) :=
  roundWith_mono (fun _ _ h => roundHalfEven_mono h) roundHalfEven_intCast hx hxy

/-- A finite result of a rounding of a non-negative value is a double. -/
theorem roundToDouble_idem {x a : ℚ} (hx : 0 ≤ x) (h : roundToDouble x = JSNum.num a) :
    roundToDouble a = JSNum.num a :=
  roundWith_idem (fun _ _ h => roundHalfEven_mono h) roundHalfEven_intCast
    roundHalfEven_intCast hx h

/-- A value between 0 and 1 rounds to a finite value between 0 and 1. -/
theorem roundToDouble_unit {x : ℚ} (h0 : 0 ≤ x) (h1 : x ≤ 1) :
    ∃ q : ℚ, roundToDouble x = JSNum.num q ∧ 0 ≤ q ∧ q ≤ 1 :=
  roundWith_unit (fun _ _ h => roundHalfEven_mono h) roundHalfEven_intCast h0 h1

/-! ## The divisor of the repayment branch -/

/-- With base 1 the power is 1 for every implementation. -/
theorem Math.pow_one_base (impl : PowImpl) (z : ℤ) :
    Math.pow impl (JSNum.num 1) (JSInt.int z) = JSNum.num 1 := by
  unfold Math.pow
  by_cases hz : z = 0
  · simp [hz]
  · simp only [hz, if_false, one_ne_zero]
    rcases impl.faithful 1 z with h | h
    · rw [h, one_zpow]
      exact roundWith_one floor_intCast_rat
    · rw [h, one_zpow]
      exact roundWith_one ceil_intCast_rat

/-- A base of at least 1 raised to a negative power gives a finite value between 0 and 1. -/
theorem Math.pow_unit (impl : PowImpl) {b : ℚ} (hb : 1 ≤ b) {z : ℤ} (hz : z < 0) :
    ∃ q : ℚ, Math.pow impl (JSNum.num b) (JSInt.int z) = JSNum.num q ∧ 0 ≤ q ∧ q ≤ 1 := by
  have hb0 : b ≠ 0 := by linarith
  have hx0 : 0 ≤ b ^ z := zpow_nonneg (by linarith) z
  have hx1 : b ^ z ≤ 1 := zpow_le_one_of_nonpos₀ hb (le_of_lt hz)
  unfold Math.pow
  simp only [ne_of_lt hz, if_false, hb0]
  rcases impl.faithful b z with h | h
  · rw [h]
    exact roundWith_unit floor_mono_int floor_intCast_rat hx0 hx1
  · rw [h]
    exact roundWith_unit ceil_mono_int ceil_intCast_rat hx0 hx1

/-- The sum `1 + monthlyRate` for a non-negative rate: `Infinity` or a finite value of at least
1. -/
theorem one_add_rate (r : ℚ) (hr : 0 ≤ r) :
    (1 : JSNum) + JSNum.num r = JSNum.inf false
      ∨ ∃ b : ℚ, (1 : JSNum) + JSNum.num r = JSNum.num b ∧ 1 ≤ b := by
  rw [JSNum.one_eq, JSNum.num_add]
  have hle := roundToDouble_mono (by norm_num : (0 : ℚ) ≤ 1) (by linarith : (1 : ℚ) ≤ 1 + r)
  rw [roundToDouble_one] at hle
  rcases roundToDouble_nonneg (by linarith : (0 : ℚ) ≤ 1 + r) with h | ⟨b, h, _⟩
  · exact Or.inl h
  · right
    rw [h] at hle
    exact ⟨b, h, hle⟩

/-- For a non-negative rate and a non-negative number of months the divisor is a finite value
between 0 and 1. -/
theorem annuityDenominator_unit (impl : PowImpl) (r : ℚ) (z : ℤ) (hr : 0 ≤ r) (hz : 0 ≤ z) :
    ∃ d : ℚ, annuityDenominator impl (JSNum.num r) (JSInt.int z) = JSNum.num d
      ∧ 0 ≤ d ∧ d ≤ 1 := by
  have hpow : ∃ q : ℚ, Math.pow impl ((1 : JSNum) + JSNum.num r) (-JSInt.int z) = JSNum.num q
      ∧ 0 ≤ q ∧ q ≤ 1 := by
    rw [JSInt.neg_int]
    by_cases hz0 : z = 0
    · refine ⟨1, ?_, by norm_num, le_refl 1⟩
      unfold Math.pow
      simp [hz0]
    · have hneg : -z < 0 := by omega
      rcases one_add_rate r hr with h | ⟨b, h, hb⟩
      · rw [h]
        refine ⟨0, ?_, le_refl 0, by norm_num⟩
        unfold Math.pow
        have h1 : ¬ (-z = 0) := by omega
        have h2 : ¬ (0 < -z) := by omega
        simp only [h1, h2, if_false]
      · rw [h]
        exact Math.pow_unit impl hb hneg
  obtain ⟨q, hq, hq0, hq1⟩ := hpow
  unfold annuityDenominator
  rw [hq, JSNum.one_eq, JSNum.num_sub]
  exact roundToDouble_unit (by linarith) (by linarith)

/-- The divisor is zero when the rate or the number of months is zero. -/
theorem annuityDenominator_zero (impl : PowImpl) (r : ℚ) (z : ℤ) (h : r = 0 ∨ z = 0) :
    annuityDenominator impl (JSNum.num r) (JSInt.int z) = JSNum.num 0 := by
  have hpow : Math.pow impl ((1 : JSNum) + JSNum.num r) (-JSInt.int z) = JSNum.num 1 := by
    rw [JSInt.neg_int]
    rcases h with h | h
    · rw [h, JSNum.one_eq, JSNum.num_add, add_zero, roundToDouble_one]
      exact Math.pow_one_base impl (-z)
    · rw [h]
      unfold Math.pow
      simp
  unfold annuityDenominator
  rw [hpow, JSNum.one_eq, JSNum.num_sub, sub_self]
  exact roundToDouble_zero

/-- Every branch other than `"repayment"` multiplies principal and monthly rate. -/
theorem monthlyPaymentOf_other (impl : PowImpl) {type : String} (h : type ≠ "repayment")
    (principal monthlyRate : JSNum) (months : JSInt) :
    monthlyPaymentOf impl type principal monthlyRate months = principal * monthlyRate := by
  unfold monthlyPaymentOf
  rw [if_neg h]

/-- The repayment payment is never a finite value below the interest: for an interest
`principal * monthlyRate` other than zero, the quotient by the divisor is at least the
interest. -/
theorem interest_le_repayment (impl : PowImpl) (P r : ℚ) (z : ℤ) (hP : 0 < P) (hr : 0 < r)
    (hz : 0 ≤ z) (hnz : JSNum.num P * JSNum.num r ≠ JSNum.num 0) :
    JSNum.le (JSNum.num P * JSNum.num r)
      (monthlyPaymentOf impl "repayment" (JSNum.num P) (JSNum.num r) (JSInt.int z)) := by
  obtain ⟨d, hd, hd0, hd1⟩ := annuityDenominator_unit impl r z (le_of_lt hr) hz
  unfold monthlyPaymentOf
  rw [if_pos rfl, hd]
  have hPr : (0 : ℚ) ≤ P * r := le_of_lt (mul_pos hP hr)
  rw [JSNum.num_mul] at hnz ⊢
  rcases roundToDouble_nonneg hPr with h | ⟨a, h, ha0⟩
  · rw [h]
    show JSNum.le (JSNum.inf false) (JSNum.div (JSNum.inf false) (JSNum.num d))
    simp only [JSNum.div, not_lt.mpr hd0, decide_False, Bool.xor_false]
    exact Or.inr rfl
  · have hidem := roundToDouble_idem hPr h
    rw [h] at hnz ⊢
    have hane : a ≠ 0 := fun h0 => hnz (by rw [h0])
    have hapos : 0 < a := lt_of_le_of_ne ha0 (Ne.symm hane)
    by_cases hdz : d = 0
    · show JSNum.le _ (JSNum.div _ _)
      simp only [JSNum.div, hdz, if_true, hane, if_false, not_lt.mpr ha0, decide_False]
      exact (rfl : false = false)
    · have hdpos : 0 < d := lt_of_le_of_ne hd0 (Ne.symm hdz)
      rw [JSNum.num_div _ _ hdz]
      have hle : a ≤ a / d := by
        rw [le_div_iff₀ hdpos]
        nlinarith
      have hm := roundToDouble_mono ha0 hle
      rw [hidem] at hm
      exact hm

/-- Multiplying by a positive finite factor keeps the order of non-negative values. -/
theorem JSNum.mul_le_mul_right_of_nonneg {a c : ℚ} (ha : 0 ≤ a) (hc : 0 < c) {y : JSNum}
    (h : JSNum.le (JSNum.num a) y) : JSNum.le (JSNum.num a * JSNum.num c) (y * JSNum.num c) := by
  cases y with
  | nan => exact absurd h (fun hh => hh)
  | inf b =>
    have hb : b = false := h
    rw [hb]
    have hy : JSNum.inf false * JSNum.num c = JSNum.inf false := by
      show JSNum.mul (JSNum.inf false) (JSNum.num c) = _
      simp [JSNum.mul, ne_of_gt hc, not_lt.mpr (le_of_lt hc)]
    rw [hy, JSNum.num_mul]
    rcases roundToDouble_nonneg (mul_nonneg ha (le_of_lt hc)) with h1 | ⟨v, h1, _⟩
    · rw [h1]
      exact Or.inr rfl
    · rw [h1]
      exact (rfl : false = false)
  | num b =>
    have hab : a ≤ b := h
    rw [JSNum.num_mul, JSNum.num_mul]
    exact roundToDouble_mono (mul_nonneg ha (le_of_lt hc))
      (mul_le_mul_of_nonneg_right hab (le_of_lt hc))

theorem JSNum.inf_mul_pos {c : ℚ} (hc : 0 < c) :
    JSNum.inf false * JSNum.num c = JSNum.inf false := by
  show JSNum.mul (JSNum.inf false) (JSNum.num c) = _
  simp [JSNum.mul, ne_of_gt hc, not_lt.mpr (le_of_lt hc)]

/-- With a monthly rate of zero the repayment branch yields `NaN`, whatever the principal and
the number of months. -/
theorem monthlyPaymentOf_zero_rate (impl : PowImpl) (principal : JSNum) (months : JSInt) :
    monthlyPaymentOf impl "repayment" principal (JSNum.num 0) months = JSNum.nan := by
  unfold monthlyPaymentOf
  rw [if_pos rfl]
  cases months with
  | nan =>
    have : annuityDenominator impl (JSNum.num 0) JSInt.nan = JSNum.nan := by
      unfold annuityDenominator
      have : Math.pow impl ((1 : JSNum) + JSNum.num 0) (-JSInt.nan) = JSNum.nan := rfl
      rw [this, JSNum.sub_nan]
    rw [this, JSNum.div_nan]
  | inf b =>
    have : annuityDenominator impl (JSNum.num 0) (JSInt.inf b) = JSNum.nan := by
      unfold annuityDenominator
      rw [JSNum.one_eq, JSNum.num_add, add_zero, roundToDouble_one]
      have : Math.pow impl (JSNum.num 1) (-JSInt.inf b) = JSNum.nan := by
        show Math.pow impl (JSNum.num 1) (JSInt.inf (!b)) = JSNum.nan
        unfold Math.pow
        simp
      rw [this, JSNum.sub_nan]
    rw [this, JSNum.div_nan]
  | int z =>
    rw [annuityDenominator_zero impl 0 z (Or.inl rfl)]
    cases principal with
    | nan => rw [JSNum.nan_mul, JSNum.nan_div]
    | inf b =>
      have : JSNum.inf b * JSNum.num 0 = JSNum.nan := by
        show JSNum.mul (JSNum.inf b) (JSNum.num 0) = _
        simp [JSNum.mul]
      rw [this, JSNum.nan_div]
    | num p => rw [JSNum.num_mul, mul_zero, roundToDouble_zero, JSNum.zero_div_zero]

/-! ## The balance sequence -/

/-- Closed form of the balance sequence. -/
theorem balance_closed (P r M : ℚ) (hr : r ≠ 0) (k : ℕ) :
    Spec.balance P r M k = P * (1 + r) ^ k - M * (((1 + r) ^ k - 1) / r) := by
  induction k with
  | zero => simp [Spec.balance]
  | succ k ih =>
    rw [Spec.balance, ih]
    field_simp
    ring

/-- The balance after `n` payments vanishes for the exact annuity payment and for no other. -/
theorem balance_eq_zero_iff (P r M : ℚ) (n : ℕ) (hr : 0 < r) (hn : 1 ≤ n) :
    Spec.balance P r M n = 0 ↔ M = Spec.annuity P r n := by
  have hq : (1 : ℚ) < (1 + r) ^ n := one_lt_pow₀ (by linarith) (by omega)
  have hq0 : (0 : ℚ) < (1 + r) ^ n := by linarith
  have hq1 : (1 + r) ^ n - 1 ≠ 0 := by linarith
  have hz : (1 + r) ^ (-(n : ℤ)) = ((1 + r) ^ n)⁻¹ := by
    rw [zpow_neg, zpow_natCast]
  have hd : 1 - ((1 + r) ^ n)⁻¹ ≠ 0 := by
    have : ((1 + r) ^ n)⁻¹ < 1 := inv_lt_one_of_one_lt₀ hq
    linarith
  rw [balance_closed P r M (ne_of_gt hr)]
  unfold Spec.annuity
  rw [hz]
  constructor
  · intro h
    field_simp
    field_simp at h
    linarith
  · intro h
    rw [h]
    field_simp
    ring

/-- The exact annuity total exceeds the principal. -/
theorem annuity_total_gt (P r : ℚ) (z : ℤ) (hP : 0 < P) (hr : 0 < r) (hz : 1 ≤ z) :
    P < Spec.annuity P r z * z := by
  obtain ⟨n, rfl⟩ := Int.eq_ofNat_of_zero_le (by omega : 0 ≤ z)
  have hn : n ≠ 0 := by omega
  have hq : (1 : ℚ) < (1 + r) ^ n := one_lt_pow₀ (by linarith) hn
  have hinv1 : ((1 + r) ^ n)⁻¹ < 1 := inv_lt_one_of_one_lt₀ hq
  have hd0 : 0 < 1 - ((1 + r) ^ n)⁻¹ := by linarith
  have hstep : ∀ k : ℕ, 1 - ((1 + r) ^ k)⁻¹ ≤ k * (r * (1 + r)⁻¹) := by
    intro k
    induction k with
    | zero => simp
    | succ k ih =>
      have hy1 : ((1 + r) ^ k)⁻¹ ≤ 1 := inv_le_one_of_one_le₀ (one_le_pow₀ (by linarith))
      have hs : 1 - ((1 + r) ^ (k + 1))⁻¹
          = (1 - ((1 + r) ^ k)⁻¹) + ((1 + r) ^ k)⁻¹ * (r * (1 + r)⁻¹) := by
        rw [pow_succ, mul_inv]
        have : (1 + r) ≠ 0 := by linarith
        field_simp
        ring
      have hpos : 0 ≤ r * (1 + r)⁻¹ := by
        have : (0 : ℚ) < 1 + r := by linarith
        positivity
      rw [hs]
      push_cast
      nlinarith [mul_le_mul_of_nonneg_right hy1 hpos]
  have h1 : r * (1 + r)⁻¹ < r := by
    have : (1 + r)⁻¹ < 1 := inv_lt_one_of_one_lt₀ (by linarith)
    nlinarith
  have hn0 : (0 : ℚ) < n := by exact_mod_cast Nat.pos_of_ne_zero hn
  have hlt : 1 - ((1 + r) ^ n)⁻¹ < n * r :=
    lt_of_le_of_lt (hstep n) (by nlinarith)
  unfold Spec.annuity
  rw [zpow_neg, zpow_natCast, div_mul_eq_mul_div, lt_div_iff₀ hd0]
  push_cast
  nlinarith

/-! ## Validation and the submit handler -/

/-- The object `newErrors` built by `validateForm`, written out. -/
theorem validateForm_errors_eq (s : State) :
    (validateForm s).1.errors =
      (if s.formData.amount = "" then [("amount", "Mortgage amount is required.")] else [])
      ++ (if s.formData.term = "" then [("term", "Mortgage term is required.")] else [])
      ++ (if s.formData.rate = "" then [("rate", "Interest rate is required.")] else []) := by
  by_cases ha : s.formData.amount = "" <;> by_cases ht : s.formData.term = "" <;>
    by_cases hr : s.formData.rate = "" <;>
    simp [validateForm, JSObject.set, ha, ht, hr]

/-- The boolean returned by `validateForm`. -/
theorem validateForm_ok_iff (s : State) :
    (validateForm s).2 = true ↔
      s.formData.amount ≠ "" ∧ s.formData.term ≠ "" ∧ s.formData.rate ≠ "" := by
  by_cases ha : s.formData.amount = "" <;> by_cases ht : s.formData.term = "" <;>
    by_cases hr : s.formData.rate = "" <;>
    simp [validateForm, JSObject.set, JSObject.keys, ha, ht, hr]

/-- The handler on either outcome of the validation. -/
theorem calculateRepayment_eq (impl : PowImpl) (s : State) :
    calculateRepayment impl s =
      if s.formData.amount ≠ "" ∧ s.formData.term ≠ "" ∧ s.formData.rate ≠ "" then
        { formData := s.formData,
          results := some { monthly := toFixed (repaymentFigures impl s.formData).1 2,
                            total := toFixed (repaymentFigures impl s.formData).2 2 },
          errors := [] }
      else
        { formData := s.formData,
          results := s.results,
          errors := (validateForm s).1.errors } := by
  by_cases ha : s.formData.amount = "" <;> by_cases ht : s.formData.term = "" <;>
    by_cases hr : s.formData.rate = "" <;>
    simp [calculateRepayment, validateForm, JSObject.set, JSObject.keys, ha, ht, hr]

/-- The code is the algorithm of the specification carried out in double arithmetic on the
parsed fields. -/
theorem repaymentFigures_eq_figuresInDoubles (impl : PowImpl) (formData : FormData) :
    repaymentFigures impl formData
      = Spec.figuresInDoubles impl formData.type (parseFloat formData.amount)
          (parseFloat formData.rate) (parseInt formData.term) := rfl

/-! ## Printing and evaluating at given values -/

theorem nearestScaled_eq {x : ℚ} {f n : ℕ} (hlo : (n : ℚ) ≤ x * 10 ^ f + 1 / 2)
    (hhi : x * 10 ^ f + 1 / 2 < n + 1) : nearestScaled x f = n := by
  unfold nearestScaled
  have : ⌊x * 10 ^ f + 1 / 2⌋ = (n : ℤ) := by
    rw [Int.floor_eq_iff]
    exact ⟨by exact_mod_cast hlo, by exact_mod_cast hhi⟩
  rw [this, Int.toNat_ofNat]

/-- The text `toFixed` prints for a non-negative value below `10^21` whose nearest scaled
integer is `n`. -/
theorem toFixed_of_bounds {q : ℚ} {f n : ℕ} (h0 : 0 ≤ q) (hbig : q < 10 ^ 21)
    (hlo : (n : ℚ) ≤ q * 10 ^ f + 1 / 2) (hhi : q * 10 ^ f + 1 / 2 < n + 1) :
    toFixed (JSNum.num q) f = FixedText.text (fixedDigits n f) := by
  unfold toFixed
  simp only [not_lt.mpr h0, not_le.mpr hbig, if_false, nearestScaled_eq hlo hhi]
  simp

/-- The finite case of `Math.pow`: one of the two doubles around the exact power. -/
theorem Math.pow_finite (impl : PowImpl) (b : ℚ) (z : ℤ) (hb : b ≠ 0) (hz : z ≠ 0) :
    Math.pow impl (JSNum.num b) (JSInt.int z) = roundDown (b ^ z)
      ∨ Math.pow impl (JSNum.num b) (JSInt.int z) = roundUp (b ^ z) := by
  unfold Math.pow
  simp only [hz, hb, if_false]
  exact impl.faithful b z

/-- The finite case of `Math.pow` for the correctly rounded implementation. -/
theorem Math.pow_nearest (b : ℚ) (z : ℤ) (hb : b ≠ 0) (hz : z ≠ 0) :
    Math.pow PowImpl.nearest (JSNum.num b) (JSInt.int z) = roundToDouble (b ^ z) := by
  unfold Math.pow
  simp only [hz, hb, if_false]
  rfl

theorem JSInt.round_of_lt (z : ℤ) (h1 : -2 ^ 53 < z) (h2 : z < 2 ^ 53) :
    JSInt.round z = JSInt.int z :=
  JSInt.round_of_small z (abs_lt.mpr ⟨h1, h2⟩)

theorem JSInt.toNum_int (z : ℤ) : (JSInt.int z).toNum = JSNum.num z := rfl

theorem parseInt_25 : parseInt "25" = JSInt.int 25 := by
  have h : parseInt "25" = JSInt.round 25 := by
    simp [parseInt, parseIntDigits, trimStart, isWhiteSpace, isDecimalDigit, digitsValue,
      digitValue]
  rw [h]
  exact JSInt.round_of_lt 25 (by norm_num) (by norm_num)

theorem parseInt_1 : parseInt "1" = JSInt.int 1 := by
  have h : parseInt "1" = JSInt.round 1 := by
    simp [parseInt, parseIntDigits, trimStart, isWhiteSpace, isDecimalDigit, digitsValue,
      digitValue]
  rw [h]
  exact JSInt.round_of_lt 1 (by norm_num) (by norm_num)

theorem months_300 : JSInt.int 25 * 12 = JSInt.int 300 := by
  rw [JSInt.ofNat_eq_int 12, JSInt.int_mul]
  exact JSInt.round_of_lt 300 (by norm_num) (by norm_num)

theorem months_12 : JSInt.int 1 * 12 = JSInt.int 12 := by
  rw [JSInt.ofNat_eq_int 12, JSInt.int_mul]
  exact JSInt.round_of_lt 12 (by norm_num) (by norm_num)

theorem roundHalfEven_tie_even (t : ℚ) (f : ℤ) (ht : t = f + 1 / 2) (hf : f % 2 = 0) :
    roundHalfEven t = f := by
  have hfl : ⌊t⌋ = f := by
    rw [Int.floor_eq_iff, ht]
    constructor <;> linarith
  unfold roundHalfEven
  rw [hfl, ht]
  norm_num [hf]

theorem roundHalfEven_tie_odd (t : ℚ) (f : ℤ) (ht : t = f + 1 / 2) (hf : f % 2 = 1) :
    roundHalfEven t = f + 1 := by
  have hfl : ⌊t⌋ = f := by
    rw [Int.floor_eq_iff, ht]
    constructor <;> linarith
  unfold roundHalfEven
  rw [hfl, ht]
  norm_num [hf]

/-- The nearest double of a positive value in the normal range, from its significand. -/
theorem roundToDouble_of_significand (x : ℚ) (k n : ℤ) (y : ℚ) (hk : -1022 ≤ k)
    (h1 : 2 ^ k ≤ x) (h2 : x < 2 ^ (k + 1)) (hn : roundHalfEven (x / 2 ^ (k - 52)) = n)
    (hy : y = n * 2 ^ (k - 52)) (hy0 : 0 ≤ y) (hfin : y < 2 ^ 1024) :
    roundToDouble x = JSNum.num y :=
  roundWith_of_scaled _ x (k - 52) n y (ulpExponent_of_bounds x k hk h1 h2) hn hy hy0 hfin

/-! ## The worked scenarios -/

theorem parseFloat_100000 : parseFloat "100000" = JSNum.num 100000 := by
  have h : parseFloat "100000" = roundToDouble (100000) := by
    simp [parseFloat, trimStart, isWhiteSpace, strUnsignedDecimalLiteral, isDecimalDigit,
      digitsValue, digitValue, exponentPart]
  have h2 : roundToDouble (100000) = JSNum.num 100000 :=
    roundToDouble_of_pos _ 16 6871947673600000 _ (by norm_num) (by norm_num) (by norm_num) (by norm_num) (by norm_num) (by norm_num) (by norm_num) (by norm_num)
  rw [h, h2]

theorem parseFloat_5 : parseFloat "5" = JSNum.num 5 := by
  have h : parseFloat "5" = roundToDouble (5) := by
    simp [parseFloat, trimStart, isWhiteSpace, strUnsignedDecimalLiteral, isDecimalDigit,
      digitsValue, digitValue, exponentPart]
  have h2 : roundToDouble (5) = JSNum.num 5 :=
    roundToDouble_of_pos _ 2 5629499534213120 _ (by norm_num) (by norm_num) (by norm_num) (by norm_num) (by norm_num) (by norm_num) (by norm_num) (by norm_num)
  rw [h, h2]

theorem parseFloat_125000 : parseFloat "125000" = JSNum.num 125000 := by
  have h : parseFloat "125000" = roundToDouble (125000) := by
    simp [parseFloat, trimStart, isWhiteSpace, strUnsignedDecimalLiteral, isDecimalDigit,
      digitsValue, digitValue, exponentPart]
  have h2 : roundToDouble (125000) = JSNum.num 125000 :=
    roundToDouble_of_pos _ 16 8589934592000000 _ (by norm_num) (by norm_num) (by norm_num) (by norm_num) (by norm_num) (by norm_num) (by norm_num) (by norm_num)
  rw [h, h2]

theorem parseFloat_3_75 : parseFloat "3.75" = JSNum.num (15 / 4) := by
  have h : parseFloat "3.75" = roundToDouble (15 / 4) := by
    simp [parseFloat, trimStart, isWhiteSpace, strUnsignedDecimalLiteral, isDecimalDigit,
      digitsValue, digitValue, exponentPart]
    norm_num
  have h2 : roundToDouble (15 / 4) = JSNum.num (15 / 4) :=
    roundToDouble_of_pos _ 1 8444249301319680 _ (by norm_num) (by norm_num) (by norm_num) (by norm_num) (by norm_num) (by norm_num) (by norm_num) (by norm_num)
  rw [h, h2]

theorem parseFloat_600 : parseFloat "600" = JSNum.num 600 := by
  have h : parseFloat "600" = roundToDouble (600) := by
    simp [parseFloat, trimStart, isWhiteSpace, strUnsignedDecimalLiteral, isDecimalDigit,
      digitsValue, digitValue, exponentPart]
  have h2 : roundToDouble (600) = JSNum.num 600 :=
    roundToDouble_of_pos _ 9 5277655813324800 _ (by norm_num) (by norm_num) (by norm_num) (by norm_num) (by norm_num) (by norm_num) (by norm_num) (by norm_num)
  rw [h, h2]

theorem parseFloat_0_000001 : parseFloat "0.000001" = JSNum.num (4722366482869645 / 4722366482869645213696) := by
  have h : parseFloat "0.000001" = roundToDouble (1 / 1000000) := by
    simp [parseFloat, trimStart, isWhiteSpace, strUnsignedDecimalLiteral, isDecimalDigit,
      digitsValue, digitValue, exponentPart]
    norm_num
  have h2 : roundToDouble (1 / 1000000) = JSNum.num (4722366482869645 / 4722366482869645213696) :=
    roundToDouble_of_pos _ (-20) 4722366482869645 _ (by norm_num) (by norm_num) (by norm_num) (by norm_num) (by norm_num) (by norm_num) (by norm_num) (by norm_num)
  rw [h, h2]

theorem parseFloat_1e_14 : parseFloat "1e-14" = JSNum.num (6338253001141147 / 633825300114114700748351602688) := by
  have h : parseFloat "1e-14" = roundToDouble (1 / 10 ^ 14) := by
    simp [parseFloat, trimStart, isWhiteSpace, strUnsignedDecimalLiteral, isDecimalDigit,
      digitsValue, digitValue, exponentPart]
    norm_num
  have h2 : roundToDouble (1 / 10 ^ 14) = JSNum.num (6338253001141147 / 633825300114114700748351602688) :=
    roundToDouble_of_pos _ (-47) 6338253001141147 _ (by norm_num) (by norm_num) (by norm_num) (by norm_num) (by norm_num) (by norm_num) (by norm_num) (by norm_num)
  rw [h, h2]

theorem parseFloat_0_00000000000001 : parseFloat "0.00000000000001" = JSNum.num (6338253001141147 / 633825300114114700748351602688) := by
  have h : parseFloat "0.00000000000001" = roundToDouble (1 / 10 ^ 14) := by
    simp [parseFloat, trimStart, isWhiteSpace, strUnsignedDecimalLiteral, isDecimalDigit,
      digitsValue, digitValue, exponentPart]
  have h2 : roundToDouble (1 / 10 ^ 14) = JSNum.num (6338253001141147 / 633825300114114700748351602688) :=
    roundToDouble_of_pos _ (-47) 6338253001141147 _ (by norm_num) (by norm_num) (by norm_num) (by norm_num) (by norm_num) (by norm_num) (by norm_num) (by norm_num)
  rw [h, h2]

theorem parseFloat_1e_310 : parseFloat "1e-310" = JSNum.num (20240225330731 / 202402253307310618352495346718917307049556649764142118356901358027430339567995346891960383701437124495187077864316811911389808737385793476867013399940738509921517424276566361364466907742093216341239767678472745068562007483424692698618103355649159556340810056512358769552333414615230502532186327508646006263307707741093494784) := by
  have h : parseFloat "1e-310" = roundToDouble (1 / 10 ^ 310) := by
    simp [parseFloat, trimStart, isWhiteSpace, strUnsignedDecimalLiteral, isDecimalDigit,
      digitsValue, digitValue, exponentPart]
    norm_num
  have h2 : roundToDouble (1 / 10 ^ 310) = JSNum.num (20240225330731 / 202402253307310618352495346718917307049556649764142118356901358027430339567995346891960383701437124495187077864316811911389808737385793476867013399940738509921517424276566361364466907742093216341239767678472745068562007483424692698618103355649159556340810056512358769552333414615230502532186327508646006263307707741093494784) :=
    roundToDouble_of_small _ 20240225330731 _ (by norm_num) (by norm_num) (by norm_num) (by norm_num) (by norm_num) (by norm_num) (by norm_num)
  rw [h, h2]

theorem parseFloat_416_67 : parseFloat "416.67" = JSNum.num (7330136159126815 / 17592186044416) := by
  have h : parseFloat "416.67" = roundToDouble (41667 / 100) := by
    simp [parseFloat, trimStart, isWhiteSpace, strUnsignedDecimalLiteral, isDecimalDigit,
      digitsValue, digitValue, exponentPart]
    norm_num
  have h2 : roundToDouble (41667 / 100) = JSNum.num (7330136159126815 / 17592186044416) :=
    roundToDouble_of_pos _ 8 7330136159126815 _ (by norm_num) (by norm_num) (by norm_num) (by norm_num) (by norm_num) (by norm_num) (by norm_num) (by norm_num)
  rw [h, h2]

theorem parseFloat_125000_00 : parseFloat "125000.00" = JSNum.num 125000 := by
  have h : parseFloat "125000.00" = roundToDouble (125000) := by
    simp [parseFloat, trimStart, isWhiteSpace, strUnsignedDecimalLiteral, isDecimalDigit,
      digitsValue, digitValue, exponentPart]
  have h2 : roundToDouble (125000) = JSNum.num 125000 :=
    roundToDouble_of_pos _ 16 8589934592000000 _ (by norm_num) (by norm_num) (by norm_num) (by norm_num) (by norm_num) (by norm_num) (by norm_num) (by norm_num)
  rw [h, h2]

theorem monthlyRate_5 : JSNum.num 5 / 100 / 12 = JSNum.num (4803839602528529 / 1152921504606846976) := by
  have h1 : roundToDouble (5 / 100) = JSNum.num (3602879701896397 / 72057594037927936) :=
    roundToDouble_of_pos _ (-5) 7205759403792794 _ (by norm_num) (by norm_num) (by norm_num) (by norm_num) (by norm_num) (by norm_num) (by norm_num) (by norm_num)
  have h2 : roundToDouble ((3602879701896397 / 72057594037927936) / 12) = JSNum.num (4803839602528529 / 1152921504606846976) :=
    roundToDouble_of_pos _ (-8) 4803839602528529 _ (by norm_num) (by norm_num) (by norm_num) (by norm_num) (by norm_num) (by norm_num) (by norm_num) (by norm_num)
  rw [JSNum.ofNat_eq_num 100, JSNum.ofNat_eq_num 12, JSNum.num_div _ _ (by norm_num), h1,
    JSNum.num_div _ _ (by norm_num), h2]

theorem monthlyRate_3_75 : JSNum.num (15 / 4) / 100 / 12 = JSNum.num (7205759403792793 / 2305843009213693952) := by
  have h1 : roundToDouble ((15 / 4) / 100) = JSNum.num (5404319552844595 / 144115188075855872) :=
    roundToDouble_of_pos _ (-5) 5404319552844595 _ (by norm_num) (by norm_num) (by norm_num) (by norm_num) (by norm_num) (by norm_num) (by norm_num) (by norm_num)
  have h2 : roundToDouble ((5404319552844595 / 144115188075855872) / 12) = JSNum.num (7205759403792793 / 2305843009213693952) :=
    roundToDouble_of_pos _ (-9) 7205759403792793 _ (by norm_num) (by norm_num) (by norm_num) (by norm_num) (by norm_num) (by norm_num) (by norm_num) (by norm_num)
  rw [JSNum.ofNat_eq_num 100, JSNum.ofNat_eq_num 12, JSNum.num_div _ _ (by norm_num), h1,
    JSNum.num_div _ _ (by norm_num), h2]

theorem monthlyRate_600 : JSNum.num 600 / 100 / 12 = JSNum.num (1 / 2) := by
  have h1 : roundToDouble (600 / 100) = JSNum.num 6 :=
    roundToDouble_of_pos _ 2 6755399441055744 _ (by norm_num) (by norm_num) (by norm_num) (by norm_num) (by norm_num) (by norm_num) (by norm_num) (by norm_num)
  have h2 : roundToDouble (6 / 12) = JSNum.num (1 / 2) :=
    roundToDouble_of_pos _ (-1) 4503599627370496 _ (by norm_num) (by norm_num) (by norm_num) (by norm_num) (by norm_num) (by norm_num) (by norm_num) (by norm_num)
  rw [JSNum.ofNat_eq_num 100, JSNum.ofNat_eq_num 12, JSNum.num_div _ _ (by norm_num), h1,
    JSNum.num_div _ _ (by norm_num), h2]

theorem monthlyRate_0_000001 : JSNum.num (4722366482869645 / 4722366482869645213696) / 100 / 12 = JSNum.num (1007438183012191 / 1208925819614629174706176) := by
  have h1 : roundToDouble ((4722366482869645 / 4722366482869645213696) / 100) = JSNum.num (3022314549036573 / 302231454903657293676544) :=
    roundToDouble_of_pos _ (-27) 6044629098073146 _ (by norm_num) (by norm_num) (by norm_num) (by norm_num) (by norm_num) (by norm_num) (by norm_num) (by norm_num)
  have h2 : roundToDouble ((3022314549036573 / 302231454903657293676544) / 12) = JSNum.num (1007438183012191 / 1208925819614629174706176) :=
    roundToDouble_of_pos _ (-31) 8059505464097528 _ (by norm_num) (by norm_num) (by norm_num) (by norm_num) (by norm_num) (by norm_num) (by norm_num) (by norm_num)
  rw [JSNum.ofNat_eq_num 100, JSNum.ofNat_eq_num 12, JSNum.num_div _ _ (by norm_num), h1,
    JSNum.num_div _ _ (by norm_num), h2]

theorem monthlyRate_1e_14 : JSNum.num (6338253001141147 / 633825300114114700748351602688) / 100 / 12 = JSNum.num (5408642560973779 / 649037107316853453566312041152512) := by
  have h1 : roundToDouble ((6338253001141147 / 633825300114114700748351602688) / 100) = JSNum.num (2028240960365167 / 20282409603651670423947251286016) :=
    roundToDouble_of_pos _ (-54) 8112963841460668 _ (by norm_num) (by norm_num) (by norm_num) (by norm_num) (by norm_num) (by norm_num) (by norm_num) (by norm_num)
  have h2 : roundToDouble ((2028240960365167 / 20282409603651670423947251286016) / 12) = JSNum.num (5408642560973779 / 649037107316853453566312041152512) :=
    roundToDouble_of_pos _ (-57) 5408642560973779 _ (by norm_num) (by norm_num) (by norm_num) (by norm_num) (by norm_num) (by norm_num) (by norm_num) (by norm_num)
  rw [JSNum.ofNat_eq_num 100, JSNum.ofNat_eq_num 12, JSNum.num_div _ _ (by norm_num), h1,
    JSNum.num_div _ _ (by norm_num), h2]

theorem scenario2_monthly (impl : PowImpl) (months : JSInt) :
    monthlyPaymentOf impl "interest-only" (JSNum.num 100000) (JSNum.num (4803839602528529 / 1152921504606846976)) months
      = JSNum.num (7330077518506667 / 17592186044416) := by
  have h1 : roundToDouble (100000 * (4803839602528529 / 1152921504606846976)) = JSNum.num (7330077518506667 / 17592186044416) :=
    roundToDouble_of_pos _ 8 7330077518506667 _ (by norm_num) (by norm_num) (by norm_num) (by norm_num) (by norm_num) (by norm_num) (by norm_num) (by norm_num)
  rw [monthlyPaymentOf_other impl (by decide), JSNum.num_mul, h1]

theorem scenario2_total : JSNum.num (7330077518506667 / 17592186044416) * (JSInt.int 300).toNum = JSNum.num 125000 := by
  have h1 : roundToDouble ((7330077518506667 / 17592186044416) * 300) = JSNum.num 125000 :=
    roundToDouble_of_pos _ 16 8589934592000000 _ (by norm_num) (by norm_num) (by norm_num) (by norm_num) (by norm_num) (by norm_num) (by norm_num) (by norm_num)
  rw [JSInt.toNum_int]
  simp only [Int.cast_ofNat]
  rw [JSNum.num_mul, h1]

theorem scenario2_monthly_text : toFixed (JSNum.num (7330077518506667 / 17592186044416)) 2 = FixedText.text "416.67" := by
  rw [toFixed_of_bounds (n := 41667) (by norm_num) (by norm_num) (by norm_num) (by norm_num)]
  decide

theorem scenario2_total_text : toFixed (JSNum.num 125000) 2 = FixedText.text "125000.00" := by
  rw [toFixed_of_bounds (n := 12500000) (by norm_num) (by norm_num) (by norm_num) (by norm_num)]
  decide

theorem interest_125000_3_75 (impl : PowImpl) (months : JSInt) :
    monthlyPaymentOf impl "interest-only" (JSNum.num 125000) (JSNum.num (7205759403792793 / 2305843009213693952)) months
      = JSNum.num (6871947673599999 / 17592186044416) := by
  have h1 : roundToDouble (125000 * (7205759403792793 / 2305843009213693952)) = JSNum.num (6871947673599999 / 17592186044416) :=
    roundToDouble_of_pos _ 8 6871947673599999 _ (by norm_num) (by norm_num) (by norm_num) (by norm_num) (by norm_num) (by norm_num) (by norm_num) (by norm_num)
  rw [monthlyPaymentOf_other impl (by decide), JSNum.num_mul, h1]

theorem total_125000_3_75 : JSNum.num (6871947673599999 / 17592186044416) * (JSInt.int 300).toNum = JSNum.num (8053063679999999 / 68719476736) := by
  have h1 : roundToDouble ((6871947673599999 / 17592186044416) * 300) = JSNum.num (8053063679999999 / 68719476736) :=
    roundToDouble_of_pos _ 16 8053063679999999 _ (by norm_num) (by norm_num) (by norm_num) (by norm_num) (by norm_num) (by norm_num) (by norm_num) (by norm_num)
  rw [JSInt.toNum_int]
  simp only [Int.cast_ofNat]
  rw [JSNum.num_mul, h1]

theorem text_125000_3_75 : toFixed (JSNum.num (6871947673599999 / 17592186044416)) 2 = FixedText.text "390.62" := by
  rw [toFixed_of_bounds (n := 39062) (by norm_num) (by norm_num) (by norm_num) (by norm_num)]
  decide

theorem text_exact_3125_8 : toFixed (JSNum.num (3125 / 8)) 2 = FixedText.text "390.63" := by
  rw [toFixed_of_bounds (n := 39063) (by norm_num) (by norm_num) (by norm_num) (by norm_num)]
  decide

theorem interest_100000_600 (impl : PowImpl) (months : JSInt) :
    monthlyPaymentOf impl "interest-only" (JSNum.num 100000) (JSNum.num (1 / 2)) months
      = JSNum.num 50000 := by
  have h1 : roundToDouble (100000 * (1 / 2)) = JSNum.num 50000 :=
    roundToDouble_of_pos _ 15 6871947673600000 _ (by norm_num) (by norm_num) (by norm_num) (by norm_num) (by norm_num) (by norm_num) (by norm_num) (by norm_num)
  rw [monthlyPaymentOf_other impl (by decide), JSNum.num_mul, h1]

theorem total_100000_600 : JSNum.num 50000 * (JSInt.int 12).toNum = JSNum.num 600000 := by
  have h1 : roundToDouble (50000 * 12) = JSNum.num 600000 :=
    roundToDouble_of_pos _ 19 5153960755200000 _ (by norm_num) (by norm_num) (by norm_num) (by norm_num) (by norm_num) (by norm_num) (by norm_num) (by norm_num)
  rw [JSInt.toNum_int]
  simp only [Int.cast_ofNat]
  rw [JSNum.num_mul, h1]

theorem scenario1_texts (impl : PowImpl) :
    toFixed (monthlyPaymentOf impl "repayment" (JSNum.num 100000) (JSNum.num (4803839602528529 / 1152921504606846976))
        (JSInt.int 300)) 2 = FixedText.text "584.59"
    ∧ toFixed (monthlyPaymentOf impl "repayment" (JSNum.num 100000) (JSNum.num (4803839602528529 / 1152921504606846976))
        (JSInt.int 300) * (JSInt.int 300).toNum) 2 = FixedText.text "175377.01" := by
  rcases Math.pow_finite impl (4522364625817873 / 4503599627370496) (-300) (by norm_num) (by norm_num) with hpow | hpow
  · have hb : roundToDouble (1 + (4803839602528529 / 1152921504606846976)) = JSNum.num (4522364625817873 / 4503599627370496) :=
      roundToDouble_of_pos _ 0 4522364625817873 _ (by norm_num) (by norm_num) (by norm_num) (by norm_num) (by norm_num) (by norm_num) (by norm_num) (by norm_num)
    have hp : roundDown ((4522364625817873 / 4503599627370496) ^ (-300 : ℤ)) = JSNum.num (5174632440958621 / 18014398509481984) :=
      roundDown_of_pos _ (-2) 5174632440958621 _ (by norm_num) (by norm_num) (by norm_num) (by norm_num) (by norm_num) (by norm_num) (by norm_num) (by norm_num)
    have hd : roundToDouble (1 - (5174632440958621 / 18014398509481984)) = JSNum.num (3209941517130841 / 4503599627370496) :=
      roundToDouble_of_significand _ (-1) 6419883034261682 _ (by norm_num) (by norm_num) (by norm_num)
      (roundHalfEven_tie_odd _ 6419883034261681 (by norm_num) (by norm_num)) (by norm_num) (by norm_num) (by norm_num)
    have hx : roundToDouble (100000 * (4803839602528529 / 1152921504606846976)) = JSNum.num (7330077518506667 / 17592186044416) :=
      roundToDouble_of_pos _ 8 7330077518506667 _ (by norm_num) (by norm_num) (by norm_num) (by norm_num) (by norm_num) (by norm_num) (by norm_num) (by norm_num)
    have hm : roundToDouble ((7330077518506667 / 17592186044416) / (3209941517130841 / 4503599627370496)) = JSNum.num (1285527096240157 / 2199023255552) :=
      roundToDouble_of_pos _ 9 5142108384960628 _ (by norm_num) (by norm_num) (by norm_num) (by norm_num) (by norm_num) (by norm_num) (by norm_num) (by norm_num)
    have ht : roundToDouble ((1285527096240157 / 2199023255552) * 300) = JSNum.num (753238532953217 / 4294967296) :=
      roundToDouble_of_pos _ 17 6025908263625736 _ (by norm_num) (by norm_num) (by norm_num) (by norm_num) (by norm_num) (by norm_num) (by norm_num) (by norm_num)
    have hM : monthlyPaymentOf impl "repayment" (JSNum.num 100000) (JSNum.num (4803839602528529 / 1152921504606846976))
        (JSInt.int 300) = JSNum.num (1285527096240157 / 2199023255552) := by
      unfold monthlyPaymentOf annuityDenominator
      rw [if_pos rfl, JSNum.one_eq, JSNum.num_add, hb, JSInt.neg_int, hpow, hp, JSNum.num_sub, hd,
        JSNum.num_mul, hx, JSNum.num_div _ _ (by norm_num), hm]
    rw [hM, JSInt.toNum_int]
    simp only [Int.cast_ofNat]
    rw [JSNum.num_mul, ht]
    exact ⟨(toFixed_of_bounds (n := 58459) (by norm_num) (by norm_num) (by norm_num) (by norm_num)).trans (by decide),
      (toFixed_of_bounds (n := 17537701) (by norm_num) (by norm_num) (by norm_num) (by norm_num)).trans (by decide)⟩
  · have hb : roundToDouble (1 + (4803839602528529 / 1152921504606846976)) = JSNum.num (4522364625817873 / 4503599627370496) :=
      roundToDouble_of_pos _ 0 4522364625817873 _ (by norm_num) (by norm_num) (by norm_num) (by norm_num) (by norm_num) (by norm_num) (by norm_num) (by norm_num)
    have hp : roundUp ((4522364625817873 / 4503599627370496) ^ (-300 : ℤ)) = JSNum.num (2587316220479311 / 9007199254740992) :=
      roundUp_of_pos _ (-2) 5174632440958622 _ (by norm_num) (by norm_num) (by norm_num) (by norm_num) (by norm_num) (by norm_num) (by norm_num) (by norm_num)
    have hd : roundToDouble (1 - (2587316220479311 / 9007199254740992)) = JSNum.num (6419883034261681 / 9007199254740992) :=
      roundToDouble_of_pos _ (-1) 6419883034261681 _ (by norm_num) (by norm_num) (by norm_num) (by norm_num) (by norm_num) (by norm_num) (by norm_num) (by norm_num)
    have hx : roundToDouble (100000 * (4803839602528529 / 1152921504606846976)) = JSNum.num (7330077518506667 / 17592186044416) :=
      roundToDouble_of_pos _ 8 7330077518506667 _ (by norm_num) (by norm_num) (by norm_num) (by norm_num) (by norm_num) (by norm_num) (by norm_num) (by norm_num)
    have hm : roundToDouble ((7330077518506667 / 17592186044416) / (6419883034261681 / 9007199254740992)) = JSNum.num (5142108384960629 / 8796093022208) :=
      roundToDouble_of_pos _ 9 5142108384960629 _ (by norm_num) (by norm_num) (by norm_num) (by norm_num) (by norm_num) (by norm_num) (by norm_num) (by norm_num)
    have ht : roundToDouble ((5142108384960629 / 8796093022208) * 300) = JSNum.num (6025908263625737 / 34359738368) :=
      roundToDouble_of_pos _ 17 6025908263625737 _ (by norm_num) (by norm_num) (by norm_num) (by norm_num) (by norm_num) (by norm_num) (by norm_num) (by norm_num)
    have hM : monthlyPaymentOf impl "repayment" (JSNum.num 100000) (JSNum.num (4803839602528529 / 1152921504606846976))
        (JSInt.int 300) = JSNum.num (5142108384960629 / 8796093022208) := by
      unfold monthlyPaymentOf annuityDenominator
      rw [if_pos rfl, JSNum.one_eq, JSNum.num_add, hb, JSInt.neg_int, hpow, hp, JSNum.num_sub, hd,
        JSNum.num_mul, hx, JSNum.num_div _ _ (by norm_num), hm]
    rw [hM, JSInt.toNum_int]
    simp only [Int.cast_ofNat]
    rw [JSNum.num_mul, ht]
    exact ⟨(toFixed_of_bounds (n := 58459) (by norm_num) (by norm_num) (by norm_num) (by norm_num)).trans (by decide),
      (toFixed_of_bounds (n := 17537701) (by norm_num) (by norm_num) (by norm_num) (by norm_num)).trans (by decide)⟩

theorem scenario1_payment_nearest :
    monthlyPaymentOf PowImpl.nearest "repayment" (JSNum.num 100000) (JSNum.num (4803839602528529 / 1152921504606846976))
        (JSInt.int 300) = JSNum.num (5142108384960629 / 8796093022208) := by
  have hpow := Math.pow_nearest (4522364625817873 / 4503599627370496) (-300) (by norm_num) (by norm_num)
  have hb : roundToDouble (1 + (4803839602528529 / 1152921504606846976)) = JSNum.num (4522364625817873 / 4503599627370496) :=
    roundToDouble_of_pos _ 0 4522364625817873 _ (by norm_num) (by norm_num) (by norm_num) (by norm_num) (by norm_num) (by norm_num) (by norm_num) (by norm_num)
  have hp : roundToDouble ((4522364625817873 / 4503599627370496) ^ (-300 : ℤ)) = JSNum.num (2587316220479311 / 9007199254740992) :=
    roundToDouble_of_pos _ (-2) 5174632440958622 _ (by norm_num) (by norm_num) (by norm_num) (by norm_num) (by norm_num) (by norm_num) (by norm_num) (by norm_num)
  have hd : roundToDouble (1 - (2587316220479311 / 9007199254740992)) = JSNum.num (6419883034261681 / 9007199254740992) :=
    roundToDouble_of_pos _ (-1) 6419883034261681 _ (by norm_num) (by norm_num) (by norm_num) (by norm_num) (by norm_num) (by norm_num) (by norm_num) (by norm_num)
  have hx : roundToDouble (100000 * (4803839602528529 / 1152921504606846976)) = JSNum.num (7330077518506667 / 17592186044416) :=
    roundToDouble_of_pos _ 8 7330077518506667 _ (by norm_num) (by norm_num) (by norm_num) (by norm_num) (by norm_num) (by norm_num) (by norm_num) (by norm_num)
  have hm : roundToDouble ((7330077518506667 / 17592186044416) / (6419883034261681 / 9007199254740992)) = JSNum.num (5142108384960629 / 8796093022208) :=
    roundToDouble_of_pos _ 9 5142108384960629 _ (by norm_num) (by norm_num) (by norm_num) (by norm_num) (by norm_num) (by norm_num) (by norm_num) (by norm_num)
  unfold monthlyPaymentOf annuityDenominator
  rw [if_pos rfl, JSNum.one_eq, JSNum.num_add, hb, JSInt.neg_int, hpow, hp, JSNum.num_sub, hd,
    JSNum.num_mul, hx, JSNum.num_div _ _ (by norm_num), hm]

theorem payment_100000_0_000001 :
    monthlyPaymentOf PowImpl.nearest "repayment" (JSNum.num 100000) (JSNum.num (1007438183012191 / 1208925819614629174706176))
        (JSInt.int 12) = JSNum.num (4581298070008365 / 549755813888) := by
  have hpow := Math.pow_nearest (562949953890437 / 562949953421312) (-12) (by norm_num) (by norm_num)
  have hb : roundToDouble (1 + (1007438183012191 / 1208925819614629174706176)) = JSNum.num (562949953890437 / 562949953421312) :=
    roundToDouble_of_pos _ 0 4503599631123496 _ (by norm_num) (by norm_num) (by norm_num) (by norm_num) (by norm_num) (by norm_num) (by norm_num) (by norm_num)
  have hp : roundToDouble ((562949953890437 / 562949953421312) ^ (-12 : ℤ)) = JSNum.num (140737486947953 / 140737488355328) :=
    roundToDouble_of_pos _ (-1) 9007199164668992 _ (by norm_num) (by norm_num) (by norm_num) (by norm_num) (by norm_num) (by norm_num) (by norm_num) (by norm_num)
  have hd : roundToDouble (1 - (140737486947953 / 140737488355328)) = JSNum.num (1407375 / 140737488355328) :=
    roundToDouble_of_pos _ (-27) 6044629598208000 _ (by norm_num) (by norm_num) (by norm_num) (by norm_num) (by norm_num) (by norm_num) (by norm_num) (by norm_num)
  have hx : roundToDouble (100000 * (1007438183012191 / 1208925819614629174706176)) = JSNum.num (6148914691236517 / 73786976294838206464) :=
    roundToDouble_of_pos _ (-14) 6148914691236517 _ (by norm_num) (by norm_num) (by norm_num) (by norm_num) (by norm_num) (by norm_num) (by norm_num) (by norm_num)
  have hm : roundToDouble ((6148914691236517 / 73786976294838206464) / (1407375 / 140737488355328)) = JSNum.num (4581298070008365 / 549755813888) :=
    roundToDouble_of_pos _ 13 4581298070008365 _ (by norm_num) (by norm_num) (by norm_num) (by norm_num) (by norm_num) (by norm_num) (by norm_num) (by norm_num)
  unfold monthlyPaymentOf annuityDenominator
  rw [if_pos rfl, JSNum.one_eq, JSNum.num_add, hb, JSInt.neg_int, hpow, hp, JSNum.num_sub, hd,
    JSNum.num_mul, hx, JSNum.num_div _ _ (by norm_num), hm]

theorem total_100000_0_000001 : JSNum.num (4581298070008365 / 549755813888) * (JSInt.int 12).toNum = JSNum.num (1717986776253137 / 17179869184) := by
  have h1 : roundToDouble ((4581298070008365 / 549755813888) * 12) = JSNum.num (1717986776253137 / 17179869184) :=
    roundToDouble_of_significand _ 16 6871947105012548 _ (by norm_num) (by norm_num) (by norm_num)
      (roundHalfEven_tie_odd _ 6871947105012547 (by norm_num) (by norm_num)) (by norm_num) (by norm_num) (by norm_num)
  rw [JSInt.toNum_int]
  simp only [Int.cast_ofNat]
  rw [JSNum.num_mul, h1]

theorem printed_monthly_times_months : JSNum.num (7330136159126815 / 17592186044416) * (JSInt.int 300).toNum = JSNum.num 125001 := by
  have h1 : roundToDouble ((7330136159126815 / 17592186044416) * 300) = JSNum.num 125001 :=
    roundToDouble_of_pos _ 16 8590003311476736 _ (by norm_num) (by norm_num) (by norm_num) (by norm_num) (by norm_num) (by norm_num) (by norm_num) (by norm_num)
  rw [JSInt.toNum_int]
  simp only [Int.cast_ofNat]
  rw [JSNum.num_mul, h1]

/-- At the monthly rate read from `0.00000000000001` the sum `1 + monthlyRate` rounds to 1 and
the divisor is zero, for every implementation of the power. -/
theorem annuityDenominator_tiny_rate (impl : PowImpl) (z : ℤ) :
    annuityDenominator impl (JSNum.num (5408642560973779 / 649037107316853453566312041152512)) (JSInt.int z) = JSNum.num 0 := by
  have hb : roundToDouble (1 + (5408642560973779 / 649037107316853453566312041152512)) = JSNum.num 1 :=
    roundToDouble_of_pos _ 0 4503599627370496 _ (by norm_num) (by norm_num) (by norm_num) (by norm_num) (by norm_num) (by norm_num) (by norm_num) (by norm_num)
  unfold annuityDenominator
  rw [JSNum.one_eq, JSNum.num_add, hb, JSInt.neg_int, Math.pow_one_base, JSNum.num_sub, sub_self]
  exact roundToDouble_zero

/-- The interest of the principal `1e-310` at that rate underflows to zero. -/
theorem interest_underflow :
    JSNum.num (20240225330731 / 202402253307310618352495346718917307049556649764142118356901358027430339567995346891960383701437124495187077864316811911389808737385793476867013399940738509921517424276566361364466907742093216341239767678472745068562007483424692698618103355649159556340810056512358769552333414615230502532186327508646006263307707741093494784) * JSNum.num (5408642560973779 / 649037107316853453566312041152512) = JSNum.num 0 := by
  have hu : roundToDouble ((20240225330731 / 202402253307310618352495346718917307049556649764142118356901358027430339567995346891960383701437124495187077864316811911389808737385793476867013399940738509921517424276566361364466907742093216341239767678472745068562007483424692698618103355649159556340810056512358769552333414615230502532186327508646006263307707741093494784) * (5408642560973779 / 649037107316853453566312041152512)) = JSNum.num 0 :=
    roundToDouble_of_small _ 0 _ (by norm_num) (by norm_num) (by norm_num) (by norm_num) (by norm_num) (by norm_num) (by norm_num)
  rw [JSNum.num_mul, hu]

/-- The interest of the principal 100000 at that rate. -/
theorem interest_tiny_rate :
    JSNum.num 100000 * JSNum.num (5408642560973779 / 649037107316853453566312041152512) = JSNum.num (8252933595235869 / 9903520314283042199192993792) := by
  have hx : roundToDouble (100000 * (5408642560973779 / 649037107316853453566312041152512)) = JSNum.num (8252933595235869 / 9903520314283042199192993792) :=
    roundToDouble_of_pos _ (-41) 8252933595235869 _ (by norm_num) (by norm_num) (by norm_num) (by norm_num) (by norm_num) (by norm_num) (by norm_num) (by norm_num)
  rw [JSNum.num_mul, hx]

/-- The figures of the form of scenarios 1 and 2 in terms of the branch on `type`. -/
theorem repaymentFigures_scenarioForm (impl : PowImpl) (type : String) :
    repaymentFigures impl (scenarioForm type)
      = (monthlyPaymentOf impl type (JSNum.num 100000) (JSNum.num (4803839602528529 / 1152921504606846976)) (JSInt.int 300),
         monthlyPaymentOf impl type (JSNum.num 100000) (JSNum.num (4803839602528529 / 1152921504606846976)) (JSInt.int 300)
           * (JSInt.int 300).toNum) := by
  unfold repaymentFigures scenarioForm
  simp only []
  rw [parseFloat_100000, parseFloat_5, monthlyRate_5, parseInt_25, months_300]

/-- The state after submitting scenario 1. -/
theorem scenario1_state (impl : PowImpl) (previous : Option Results) (errors : JSObject) :
    calculateRepayment impl
        { formData := scenarioForm "repayment", results := previous, errors := errors }
      = { formData := scenarioForm "repayment",
          results := some { monthly := FixedText.text "584.59",
                            total := FixedText.text "175377.01" },
          errors := [] } := by
  rw [calculateRepayment_eq]
  simp only [repaymentFigures_scenarioForm, (scenario1_texts impl).1, (scenario1_texts impl).2]
  rw [if_pos (by decide)]

/-- The state after submitting scenario 2. -/
theorem scenario2_state (impl : PowImpl) (previous : Option Results) (errors : JSObject) :
    calculateRepayment impl
        { formData := scenarioForm "interest-only", results := previous, errors := errors }
      = { formData := scenarioForm "interest-only",
          results := some { monthly := FixedText.text "416.67",
                            total := FixedText.text "125000.00" },
          errors := [] } := by
  rw [calculateRepayment_eq]
  simp only [repaymentFigures_scenarioForm, scenario2_monthly, scenario2_total,
    scenario2_monthly_text, scenario2_total_text]
  rw [if_pos (by decide)]

/-! ## The exact values of scenario 1 -/

theorem discount_inv_bounds {r : ℚ} (hr : 0 < r) {n : ℕ} (hn : n ≠ 0) :
    0 < ((1 + r) ^ n)⁻¹ ∧ ((1 + r) ^ n)⁻¹ < 1 := by
  have h1 : 1 < (1 + r) ^ n := one_lt_pow₀ (by linarith) hn
  exact ⟨by positivity, inv_lt_one_of_one_lt₀ h1⟩

/-- The value the algorithm of the specification gives the monthly payment of scenario 1. -/
theorem spec_monthlyPayment_scenario1 :
    Spec.monthlyPayment "repayment" 100000 5 25
      = some (100000 * (1 / 240) / (1 - ((1 + 1 / 240) ^ 300)⁻¹)) := by
  have hr : Spec.monthlyRate 5 = 1 / 240 := by norm_num [Spec.monthlyRate]
  have hn : Spec.numberOfMonths 25 = 300 := by norm_num [Spec.numberOfMonths]
  have hb := discount_inv_bounds (r := 1 / 240) (by norm_num) (n := 300) (by norm_num)
  have hz : ((1 : ℚ) + 1 / 240) ^ (-(300 : ℤ)) = ((1 + 1 / 240) ^ 300)⁻¹ := by
    rw [zpow_neg]
    norm_cast
  unfold Spec.monthlyPayment
  simp only [hr, hn, hz, if_true]
  rw [if_neg]
  rintro (h | h)
  · norm_num at h
  · linarith [hb.2]

theorem scenario1_exact_monthly_text :
    toFixed (JSNum.num (100000 * (1 / 240) / (1 - ((1 + 1 / 240) ^ 300)⁻¹))) 2
      = FixedText.text "584.59" := by
  rw [toFixed_of_bounds (n := 58459) (by norm_num) (by norm_num) (by norm_num) (by norm_num)]
  decide

theorem scenario1_exact_total_text :
    toFixed (JSNum.num (100000 * (1 / 240) / (1 - ((1 + 1 / 240) ^ 300)⁻¹) * 300)) 2
      = FixedText.text "175377.01" := by
  rw [toFixed_of_bounds (n := 17537701) (by norm_num) (by norm_num) (by norm_num)
    (by norm_num)]
  decide

/-! ## Properties of the calculator -/

/-- C1, as the source has it: whenever the amount and rate parse to finite numbers `P` and `R`
and the term to an integer `T`, the two numbers `calculateRepayment` hands to `toFixed` are
those of the algorithm of the specification carried out in double arithmetic, every operation
rounded to the nearest double; for a type other than `"repayment"` they are the values of the
algorithm over exact arithmetic whenever no operation has to round. -/
theorem repaymentFigures_eq_spec (impl : PowImpl) (formData : FormData) (P R : ℚ) (T : ℤ)
    (hP : parseFloat formData.amount = JSNum.num P)
    (hR : parseFloat formData.rate = JSNum.num R)
    (hT : parseInt formData.term = JSInt.int T) :
    repaymentFigures impl formData
      = Spec.figuresInDoubles impl formData.type (JSNum.num P) (JSNum.num R) (JSInt.int T)
    ∧ (formData.type ≠ "repayment" →
        roundToDouble (R / 100) = JSNum.num (R / 100) →
        roundToDouble (R / 100 / 12) = JSNum.num (R / 100 / 12) →
        JSInt.round (T * 12) = JSInt.int (T * 12) →
        roundToDouble (P * (R / 100 / 12)) = JSNum.num (P * (R / 100 / 12)) →
        roundToDouble (P * (R / 100 / 12) * ((T * 12 : ℤ) : ℚ))
          = JSNum.num (P * (R / 100 / 12) * ((T * 12 : ℤ) : ℚ)) →
        Spec.monthlyPayment formData.type P R T = some (P * Spec.monthlyRate R)
        ∧ repaymentFigures impl formData
            = (JSNum.num (P * Spec.monthlyRate R),
               JSNum.num (P * Spec.monthlyRate R * Spec.numberOfMonths T))) := by
  have hfig := repaymentFigures_eq_figuresInDoubles impl formData
  rw [hP, hR, hT] at hfig
  refine ⟨hfig, ?_⟩
  intro hty h1 h2 h3 h4 h5
  refine ⟨by simp [Spec.monthlyPayment, hty], ?_⟩
  rw [hfig]
  unfold Spec.figuresInDoubles
  simp only [hty, if_false]
  rw [JSNum.ofNat_eq_num 100, JSNum.ofNat_eq_num 12, JSNum.num_div _ _ (by norm_num), h1,
    JSNum.num_div _ _ (by norm_num), h2, JSInt.ofNat_eq_int 12, JSInt.int_mul, h3,
    JSNum.num_mul, h4, JSInt.toNum_int, JSNum.num_mul, h5]
  rfl

/-- C1 as amended, at amount 100000, term 1, rate 600, type interest-only, where no operation
rounds. -/
theorem repaymentFigures_eq_spec_witness :
    parseFloat "100000" = JSNum.num 100000
    ∧ parseFloat "600" = JSNum.num 600
    ∧ parseInt "1" = JSInt.int 1
    ∧ repaymentFigures PowImpl.nearest
        { amount := "100000", term := "1", rate := "600", type := "interest-only" }
      = Spec.figuresInDoubles PowImpl.nearest "interest-only" (JSNum.num 100000)
          (JSNum.num 600) (JSInt.int 1) :=
  ⟨parseFloat_100000, parseFloat_600, parseInt_1,
    (repaymentFigures_eq_spec PowImpl.nearest
      { amount := "100000", term := "1", rate := "600", type := "interest-only" }
      100000 600 1 parseFloat_100000 parseFloat_600 parseInt_1).1⟩

/-- C1 fails as stated: for amount 125000, term 25, rate 3.75 and type interest-only the
algorithm over exact arithmetic gives the monthly payment 3125/8 = 390.625, which prints as
390.63, while the code computes a double just below it, which prints as 390.62. -/
theorem repaymentFigures_ne_exact :
    parseFloat "125000" = JSNum.num 125000
    ∧ parseFloat "3.75" = JSNum.num (15 / 4)
    ∧ parseInt "25" = JSInt.int 25
    ∧ Spec.monthlyPayment "interest-only" 125000 (15 / 4) 25 = some (3125 / 8)
    ∧ (repaymentFigures PowImpl.nearest
        { amount := "125000", term := "25", rate := "3.75", type := "interest-only" }).1
      = JSNum.num (6871947673599999 / 17592186044416)
    ∧ ((6871947673599999 / 17592186044416) : ℚ) ≠ 3125 / 8
    ∧ toFixed (JSNum.num (6871947673599999 / 17592186044416)) 2 = FixedText.text "390.62"
    ∧ toFixed (JSNum.num (3125 / 8)) 2 = FixedText.text "390.63" := by
  refine ⟨parseFloat_125000, parseFloat_3_75, parseInt_25, ?_, ?_, by norm_num,
    text_125000_3_75, text_exact_3125_8⟩
  · unfold Spec.monthlyPayment
    simp only []
    rw [if_neg (by decide)]
    norm_num [Spec.monthlyRate]
  · unfold repaymentFigures
    simp only []
    rw [parseFloat_125000, parseFloat_3_75, monthlyRate_3_75, parseInt_25, months_300,
      interest_125000_3_75]

/-- C2: the error mapping set by `validateForm` has the key `amount`, `term`, `rate` exactly
when the corresponding field is the empty string, each with its fixed message, it has no other
key, and the function returns `true` exactly when the three fields are all non-empty. -/
theorem validateForm_reports_empty_fields (s : State) :
    ((validateForm s).1.errors.get "amount"
        = if s.formData.amount = "" then some "Mortgage amount is required." else none)
    ∧ ((validateForm s).1.errors.get "term"
        = if s.formData.term = "" then some "Mortgage term is required." else none)
    ∧ ((validateForm s).1.errors.get "rate"
        = if s.formData.rate = "" then some "Interest rate is required." else none)
    ∧ ((validateForm s).1.errors.keys
        = (if s.formData.amount = "" then ["amount"] else [])
          ++ (if s.formData.term = "" then ["term"] else [])
          ++ (if s.formData.rate = "" then ["rate"] else []))
    ∧ ((validateForm s).2 = true ↔
        s.formData.amount ≠ "" ∧ s.formData.term ≠ "" ∧ s.formData.rate ≠ "") := by
  refine ⟨?_, ?_, ?_, ?_, validateForm_ok_iff s⟩ <;> rw [validateForm_errors_eq] <;>
    by_cases ha : s.formData.amount = "" <;> by_cases ht : s.formData.term = "" <;>
    by_cases hr : s.formData.rate = "" <;>
    simp [JSObject.get, JSObject.keys, ha, ht, hr, List.lookup]

/-- C3, as the source has it: for a positive principal, a positive monthly rate and more than
one month, the payment of any type other than `"repayment"` is `principal * monthlyRate`
rounded to a double, and, unless that product underflows to zero, it is at most the payment of
the type `"repayment"`, which is a finite number or `Infinity`. -/
theorem interestOnly_le_repayment (impl : PowImpl) (type : String) (P r : ℚ) (z : ℤ)
    (htype : type ≠ "repayment") (hP : 0 < P) (hr : 0 < r) (hz : 1 < z)
    (hnz : monthlyPaymentOf impl type (JSNum.num P) (JSNum.num r) (JSInt.int z)
      ≠ JSNum.num 0) :
    monthlyPaymentOf impl type (JSNum.num P) (JSNum.num r) (JSInt.int z) = roundToDouble (P * r)
    ∧ JSNum.le (monthlyPaymentOf impl type (JSNum.num P) (JSNum.num r) (JSInt.int z))
        (monthlyPaymentOf impl "repayment" (JSNum.num P) (JSNum.num r) (JSInt.int z)) := by
  rw [monthlyPaymentOf_other impl htype] at hnz ⊢
  exact ⟨JSNum.num_mul P r, interest_le_repayment impl P r z hP hr (by omega) hnz⟩

/-- C3 as amended, at principal 100000, the monthly rate of 5 per cent a year and 300
months. -/
theorem interestOnly_le_repayment_witness :
    "interest-only" ≠ "repayment" ∧ (0 : ℚ) < 100000 ∧ (0 : ℚ) < (4803839602528529 / 1152921504606846976) ∧ (1 : ℤ) < 300
    ∧ monthlyPaymentOf PowImpl.nearest "interest-only" (JSNum.num 100000) (JSNum.num (4803839602528529 / 1152921504606846976))
        (JSInt.int 300) ≠ JSNum.num 0
    ∧ JSNum.le
        (monthlyPaymentOf PowImpl.nearest "interest-only" (JSNum.num 100000) (JSNum.num (4803839602528529 / 1152921504606846976))
          (JSInt.int 300))
        (monthlyPaymentOf PowImpl.nearest "repayment" (JSNum.num 100000) (JSNum.num (4803839602528529 / 1152921504606846976))
          (JSInt.int 300)) := by
  have hnz : monthlyPaymentOf PowImpl.nearest "interest-only" (JSNum.num 100000)
      (JSNum.num (4803839602528529 / 1152921504606846976)) (JSInt.int 300) ≠ JSNum.num 0 := by
    rw [scenario2_monthly]
    intro h
    have := JSNum.num.inj h
    norm_num at this
  exact ⟨by decide, by norm_num, by norm_num, by norm_num, hnz,
    (interestOnly_le_repayment PowImpl.nearest "interest-only" 100000 _ 300 (by decide)
      (by norm_num) (by norm_num) (by norm_num) hnz).2⟩

/-- C3 fails as stated: at amount `1e-310` and rate `1e-14`, both positive, with 300 months,
the interest underflows to zero and the repayment branch divides zero by zero, so the
interest-only payment is 0 and the repayment payment is `NaN`, and `0 <= NaN` is false. -/
theorem repayment_nan_at_positive_inputs :
    ∃ P r : ℚ, 0 < P ∧ 0 < r
      ∧ parseFloat "1e-310" = JSNum.num P
      ∧ parseFloat "1e-14" / 100 / 12 = JSNum.num r
      ∧ monthlyPaymentOf PowImpl.nearest "interest-only" (JSNum.num P) (JSNum.num r)
          (JSInt.int 300) = JSNum.num 0
      ∧ monthlyPaymentOf PowImpl.nearest "repayment" (JSNum.num P) (JSNum.num r)
          (JSInt.int 300) = JSNum.nan
      ∧ ¬ JSNum.le
          (monthlyPaymentOf PowImpl.nearest "interest-only" (JSNum.num P) (JSNum.num r)
            (JSInt.int 300))
          (monthlyPaymentOf PowImpl.nearest "repayment" (JSNum.num P) (JSNum.num r)
            (JSInt.int 300)) := by
  have hi : monthlyPaymentOf PowImpl.nearest "interest-only" (JSNum.num (20240225330731 / 202402253307310618352495346718917307049556649764142118356901358027430339567995346891960383701437124495187077864316811911389808737385793476867013399940738509921517424276566361364466907742093216341239767678472745068562007483424692698618103355649159556340810056512358769552333414615230502532186327508646006263307707741093494784))
      (JSNum.num (5408642560973779 / 649037107316853453566312041152512)) (JSInt.int 300) = JSNum.num 0 := by
    rw [monthlyPaymentOf_other PowImpl.nearest (by decide), interest_underflow]
  have hrep : monthlyPaymentOf PowImpl.nearest "repayment" (JSNum.num (20240225330731 / 202402253307310618352495346718917307049556649764142118356901358027430339567995346891960383701437124495187077864316811911389808737385793476867013399940738509921517424276566361364466907742093216341239767678472745068562007483424692698618103355649159556340810056512358769552333414615230502532186327508646006263307707741093494784))
      (JSNum.num (5408642560973779 / 649037107316853453566312041152512)) (JSInt.int 300) = JSNum.nan := by
    unfold monthlyPaymentOf
    rw [if_pos rfl, annuityDenominator_tiny_rate, interest_underflow, JSNum.zero_div_zero]
  refine ⟨(20240225330731 / 202402253307310618352495346718917307049556649764142118356901358027430339567995346891960383701437124495187077864316811911389808737385793476867013399940738509921517424276566361364466907742093216341239767678472745068562007483424692698618103355649159556340810056512358769552333414615230502532186327508646006263307707741093494784), (5408642560973779 / 649037107316853453566312041152512), by norm_num, by norm_num, parseFloat_1e_310, ?_, hi, hrep, ?_⟩
  · rw [parseFloat_1e_14, monthlyRate_1e_14]
  · rw [hi, hrep]
    exact fun h => h

/-- C4, as the source has it: on a form whose three fields are non-empty, `results.monthly`
is the monthly payment rounded to 2 digits and `results.total` is the monthly payment before
rounding, multiplied by the number of months and then rounded to 2 digits. -/
theorem results_total_from_unrounded_monthly (impl : PowImpl) (s : State)
    (hvalid : (validateForm s).2 = true) :
    (calculateRepayment impl s).results = some
      { monthly := toFixed (monthlyPaymentOf impl s.formData.type
          (parseFloat s.formData.amount) (parseFloat s.formData.rate / 100 / 12)
          (parseInt s.formData.term * 12)) 2,
        total := toFixed (monthlyPaymentOf impl s.formData.type
          (parseFloat s.formData.amount) (parseFloat s.formData.rate / 100 / 12)
          (parseInt s.formData.term * 12) * (parseInt s.formData.term * 12).toNum) 2 } := by
  rw [calculateRepayment_eq, if_pos ((validateForm_ok_iff s).mp hvalid)]
  rfl

/-- C4 as amended, at the form of scenario 2. -/
theorem results_total_from_unrounded_monthly_witness :
    (validateForm
        { formData := scenarioForm "interest-only", results := none, errors := [] }).2 = true
    ∧ (calculateRepayment PowImpl.nearest
        { formData := scenarioForm "interest-only", results := none, errors := [] }).results
      = some
      { monthly := toFixed (monthlyPaymentOf PowImpl.nearest "interest-only"
          (parseFloat "100000") (parseFloat "5" / 100 / 12) (parseInt "25" * 12)) 2,
        total := toFixed (monthlyPaymentOf PowImpl.nearest "interest-only"
          (parseFloat "100000") (parseFloat "5" / 100 / 12) (parseInt "25" * 12)
            * (parseInt "25" * 12).toNum) 2 } :=
  ⟨by decide,
    results_total_from_unrounded_monthly PowImpl.nearest
      { formData := scenarioForm "interest-only", results := none, errors := [] } (by decide)⟩

/-- C4 fails as stated: in scenario 2 the printed monthly payment is 416.67 and the printed
total is 125000.00, while 416.67 times the 300 months is 125001. -/
theorem rounded_total_ne_rounded_monthly_times_months :
    ∃ res : Results,
      (calculateRepayment PowImpl.nearest
          { formData := scenarioForm "interest-only", results := none, errors := [] }).results
        = some res
      ∧ res.monthly = FixedText.text "416.67"
      ∧ res.total = FixedText.text "125000.00"
      ∧ res.total.value ≠ res.monthly.value * (parseInt "25" * 12).toNum := by
  refine ⟨_, congrArg State.results (scenario2_state PowImpl.nearest none []), rfl, rfl, ?_⟩
  simp only [FixedText.value]
  rw [parseFloat_416_67, parseFloat_125000_00, parseInt_25, months_300,
    printed_monthly_times_months]
  intro h
  have h2 := JSNum.num.inj h
  norm_num at h2

/-- C5, as the source has it: for a monthly rate `r > 0` and `n ≥ 1` months, the balance
sequence `B_0 = P`, `B_(k+1) = B_k * (1 + r) - M` run with the finite payment `M` that the
repayment branch computes reaches `B_n = 0` exactly when the computed payment is the value of
the annuity formula over exact arithmetic, for which the balance does reach 0. -/
theorem repayment_amortizes (impl : PowImpl) (P r : ℚ) (n : ℕ) (M : ℚ) (hr : 0 < r)
    (hn : 1 ≤ n)
    (hM : monthlyPaymentOf impl "repayment" (JSNum.num P) (JSNum.num r) (JSInt.int n)
      = JSNum.num M) :
    (Spec.balance P r M n = 0 ↔
      monthlyPaymentOf impl "repayment" (JSNum.num P) (JSNum.num r) (JSInt.int n)
        = JSNum.num (Spec.annuity P r n))
    ∧ Spec.balance P r (Spec.annuity P r n) n = 0 := by
  refine ⟨?_, (balance_eq_zero_iff P r _ n hr hn).mpr rfl⟩
  rw [hM, balance_eq_zero_iff P r M n hr hn]
  exact ⟨fun h => congrArg JSNum.num h, fun h => JSNum.num.inj h⟩

/-- C5 as amended, at principal 100000, the monthly rate of 5 per cent a year and 300
months. -/
theorem repayment_amortizes_witness :
    (0 : ℚ) < (4803839602528529 / 1152921504606846976) ∧ 1 ≤ 300
    ∧ monthlyPaymentOf PowImpl.nearest "repayment" (JSNum.num 100000) (JSNum.num (4803839602528529 / 1152921504606846976))
        (JSInt.int (300 : ℕ)) = JSNum.num (5142108384960629 / 8796093022208)
    ∧ Spec.balance 100000 (4803839602528529 / 1152921504606846976) (Spec.annuity 100000 (4803839602528529 / 1152921504606846976) (300 : ℕ)) 300 = 0 :=
  ⟨by norm_num, by norm_num, scenario1_payment_nearest,
    (repayment_amortizes PowImpl.nearest 100000 _ 300 _ (by norm_num) (by norm_num)
      scenario1_payment_nearest).2⟩

/-- C5 fails as stated: with the payment the code computes in scenario 1 the balance after the
300 payments is not zero. -/
theorem balance_ne_zero_scenario1 :
    ∃ r M : ℚ, 0 < r
      ∧ JSNum.num 5 / 100 / 12 = JSNum.num r
      ∧ monthlyPaymentOf PowImpl.nearest "repayment" (JSNum.num 100000) (JSNum.num r)
          (JSInt.int (300 : ℕ)) = JSNum.num M
      ∧ Spec.balance 100000 r M 300 ≠ 0 := by
  refine ⟨(4803839602528529 / 1152921504606846976), (5142108384960629 / 8796093022208), by norm_num, monthlyRate_5, scenario1_payment_nearest, ?_⟩
  rw [Ne, balance_eq_zero_iff _ _ _ 300 (by norm_num) (by norm_num)]
  unfold Spec.annuity
  norm_num

/-- C6, as the source has it: for a monthly rate `r ≥ 0` and `z ≥ 0` months the divisor
`1 - Math.pow(1 + r, -z)` is a finite number between 0 and 1, both included, and it is zero when
`r = 0` or `z = 0`; with a monthly rate of zero the repayment branch divides zero by zero and
yields `NaN`, and a form that `validateForm` accepts, of type `"repayment"` with a rate that
reads as 0, ends with both results printed as `NaN`, with no fallback. -/
theorem annuityDenominator_range_unguarded (impl : PowImpl) (r : ℚ) (z : ℤ) (hr : 0 ≤ r)
    (hz : 0 ≤ z) :
    (∃ d : ℚ, annuityDenominator impl (JSNum.num r) (JSInt.int z) = JSNum.num d
      ∧ 0 ≤ d ∧ d ≤ 1 ∧ (r = 0 ∨ z = 0 → d = 0))
    ∧ (∀ (principal : JSNum) (months : JSInt),
        monthlyPaymentOf impl "repayment" principal (JSNum.num 0) months = JSNum.nan)
    ∧ (∀ s : State, s.formData.amount ≠ "" → s.formData.term ≠ "" → s.formData.rate ≠ "" →
        s.formData.type = "repayment" → parseFloat s.formData.rate = JSNum.num 0 →
        (validateForm s).2 = true
        ∧ (calculateRepayment impl s).results
            = some { monthly := FixedText.text "NaN", total := FixedText.text "NaN" }) := by
  refine ⟨?_, monthlyPaymentOf_zero_rate impl, ?_⟩
  · obtain ⟨d, hd, hd0, hd1⟩ := annuityDenominator_unit impl r z hr hz
    refine ⟨d, hd, hd0, hd1, ?_⟩
    intro h
    have h0 := annuityDenominator_zero impl r z h
    rw [hd] at h0
    exact JSNum.num.inj h0
  · intro s ha ht hrt hty hrate
    have hok : (validateForm s).2 = true := (validateForm_ok_iff s).mpr ⟨ha, ht, hrt⟩
    refine ⟨hok, ?_⟩
    have hmr : JSNum.num 0 / 100 / 12 = JSNum.num 0 := by
      rw [JSNum.ofNat_eq_num 100, JSNum.ofNat_eq_num 12, JSNum.num_div _ _ (by norm_num),
        zero_div, roundToDouble_zero, JSNum.num_div _ _ (by norm_num), zero_div,
        roundToDouble_zero]
    have hfig : repaymentFigures impl s.formData = (JSNum.nan, JSNum.nan) := by
      unfold repaymentFigures
      simp only [hrate, hty, hmr]
      rw [monthlyPaymentOf_zero_rate, JSNum.nan_mul]
    unfold calculateRepayment
    simp only [hok, hfig]
    rfl

/-- C6 as amended, at monthly rate 0 and 300 months, and at the form amount 100000, term 25,
rate 0. -/
theorem annuityDenominator_range_unguarded_witness :
    (0 : ℚ) ≤ 0 ∧ (0 : ℤ) ≤ 300
    ∧ annuityDenominator PowImpl.nearest (JSNum.num 0) (JSInt.int 300) = JSNum.num 0
    ∧ (calculateRepayment PowImpl.nearest
        { formData := { amount := "100000", term := "25", rate := "0", type := "repayment" },
          results := none, errors := [] }).results
        = some { monthly := FixedText.text "NaN", total := FixedText.text "NaN" } := by
  have h := annuityDenominator_range_unguarded PowImpl.nearest 0 300 (le_refl 0) (by norm_num)
  refine ⟨le_refl 0, by norm_num, ?_, ?_⟩
  · obtain ⟨d, hd, _, _, hzero⟩ := h.1
    rw [hd, hzero (Or.inl rfl)]
  · refine (h.2.2 _ (by decide) (by decide) (by decide) rfl ?_).2
    have h0 : parseFloat "0" = roundToDouble 0 := by
      simp [parseFloat, trimStart, isWhiteSpace, strUnsignedDecimalLiteral, isDecimalDigit,
        digitsValue, digitValue, exponentPart]
    exact h0.trans roundToDouble_zero

/-- C6 fails as stated: at the rate `0.00000000000001` the monthly rate is positive, the sum
`1 + monthlyRate` rounds to 1, and the divisor for 300 months is zero; the form with amount
100000 and term 25 prints `Infinity` for both results. -/
theorem annuityDenominator_zero_at_positive_rate :
    ∃ r : ℚ, 0 < r
      ∧ parseFloat "0.00000000000001" / 100 / 12 = JSNum.num r
      ∧ annuityDenominator PowImpl.nearest (JSNum.num r) (JSInt.int 300) = JSNum.num 0
      ∧ (calculateRepayment PowImpl.nearest
          { formData := { amount := "100000", term := "25", rate := "0.00000000000001",
                          type := "repayment" },
            results := none, errors := [] }).results
          = some { monthly := FixedText.text "Infinity",
                   total := FixedText.text "Infinity" } := by
  have hmr : parseFloat "0.00000000000001" / 100 / 12 = JSNum.num (5408642560973779 / 649037107316853453566312041152512) := by
    rw [parseFloat_0_00000000000001, monthlyRate_1e_14]
  refine ⟨(5408642560973779 / 649037107316853453566312041152512), by norm_num, hmr, annuityDenominator_tiny_rate PowImpl.nearest 300, ?_⟩
  have hpay : monthlyPaymentOf PowImpl.nearest "repayment" (JSNum.num 100000)
      (JSNum.num (5408642560973779 / 649037107316853453566312041152512)) (JSInt.int 300) = JSNum.inf false := by
    unfold monthlyPaymentOf
    rw [if_pos rfl, annuityDenominator_tiny_rate, interest_tiny_rate]
    show JSNum.div _ _ = _
    norm_num [JSNum.div]
  have hfig : repaymentFigures PowImpl.nearest
      { amount := "100000", term := "25", rate := "0.00000000000001", type := "repayment" }
      = (JSNum.inf false, JSNum.inf false) := by
    unfold repaymentFigures
    simp only []
    rw [parseFloat_100000, hmr, parseInt_25, months_300, hpay, JSInt.toNum_int,
      JSNum.inf_mul_pos (by norm_num)]
  rw [calculateRepayment_eq, hfig, if_pos (by decide)]
  rfl

/-- C7, as the source has it: submitting amount 100000, term 25, rate 5 with the type
`"repayment"` prints the monthly payment 584.59 and the total 175377.01, and these are the
roundings of the exact values of the annuity formula of the specification. -/
theorem scenario1_results (impl : PowImpl) (previous : Option Results) (errors : JSObject) :
    (calculateRepayment impl
        { formData := scenarioForm "repayment", results := previous, errors := errors }).results
      = some { monthly := FixedText.text "584.59", total := FixedText.text "175377.01" }
    ∧ ∃ m : ℚ, Spec.monthlyPayment "repayment" 100000 5 25 = some m
      ∧ toFixed (JSNum.num m) 2 = FixedText.text "584.59"
      ∧ Spec.totalRepayment "repayment" 100000 5 25 = some (m * 300)
      ∧ toFixed (JSNum.num (m * 300)) 2 = FixedText.text "175377.01" := by
  refine ⟨congrArg State.results (scenario1_state impl previous errors), _,
    spec_monthlyPayment_scenario1, scenario1_exact_monthly_text, ?_,
    scenario1_exact_total_text⟩
  have hn : Spec.numberOfMonths 25 = 300 := by norm_num [Spec.numberOfMonths]
  simp [Spec.totalRepayment, spec_monthlyPayment_scenario1, hn]

/-- C7 fails as stated: the total printed for scenario 1 is not 175376.24, whatever the
implementation of the power. -/
theorem scenario1_total_ne_175376_24 :
    ¬ ∃ impl : PowImpl,
      (calculateRepayment impl
          { formData := scenarioForm "repayment", results := none, errors := [] }).results
        = some { monthly := FixedText.text "584.59", total := FixedText.text "175376.24" } := by
  rintro ⟨impl, h⟩
  rw [scenario1_state impl none []] at h
  revert h
  decide

/-- C8: submitting amount 100000, term 25, rate 5 with the type `"interest-only"` prints the
monthly payment 416.67, which is also the rounding of the exact `100000 * (5 / 100 / 12)`, and
the total 125000.00; the unrounded total is the double 125000. -/
theorem scenario2_results (impl : PowImpl) (previous : Option Results) (errors : JSObject) :
    (calculateRepayment impl
        { formData := scenarioForm "interest-only", results := previous,
          errors := errors }).results
      = some { monthly := FixedText.text "416.67", total := FixedText.text "125000.00" }
    ∧ toFixed (JSNum.num (100000 * (5 / 100 / 12))) 2 = FixedText.text "416.67"
    ∧ repaymentFigures impl (scenarioForm "interest-only")
        = (JSNum.num (7330077518506667 / 17592186044416), JSNum.num 125000) := by
  refine ⟨congrArg State.results (scenario2_state impl previous errors), ?_, ?_⟩
  · rw [toFixed_of_bounds (n := 41667) (by norm_num) (by norm_num) (by norm_num)
      (by norm_num)]
    decide
  · rw [repaymentFigures_scenarioForm, scenario2_monthly, scenario2_total]

/-- C9: one submission leaves `formData` unchanged; when amount, term and rate are all
non-empty it empties `errors` and replaces `results` by the pair computed from `formData`
alone, and otherwise it keeps `results` as it was and replaces only `errors`. -/
theorem calculateRepayment_frame (impl : PowImpl) (s : State) :
    calculateRepayment impl s =
      if s.formData.amount ≠ "" ∧ s.formData.term ≠ "" ∧ s.formData.rate ≠ "" then
        { formData := s.formData,
          results := some { monthly := toFixed (repaymentFigures impl s.formData).1 2,
                            total := toFixed (repaymentFigures impl s.formData).2 2 },
          errors := [] }
      else
        { formData := s.formData,
          results := s.results,
          errors := (validateForm s).1.errors } :=
  calculateRepayment_eq impl s

/-- C10, as the source has it: for a positive principal, a positive monthly rate and at least
one month, the total of the annuity formula over exact arithmetic is strictly greater than the
principal; the total the code computes in doubles for the type `"repayment"` is, unless the
interest underflows to zero, at least the total it computes for any other type, and is a finite
number or `Infinity`; the exact interest-only total `P * r * n` exceeds the principal only when
`r * n > 1`. -/
theorem repayment_total_ge_interest_total (impl : PowImpl) (type : String) (P r : ℚ) (z : ℤ)
    (htype : type ≠ "repayment") (hP : 0 < P) (hr : 0 < r) (hz : 1 ≤ z)
    (hnz : monthlyPaymentOf impl type (JSNum.num P) (JSNum.num r) (JSInt.int z)
      ≠ JSNum.num 0) :
    JSNum.le
        (monthlyPaymentOf impl type (JSNum.num P) (JSNum.num r) (JSInt.int z)
          * (JSInt.int z).toNum)
        (monthlyPaymentOf impl "repayment" (JSNum.num P) (JSNum.num r) (JSInt.int z)
          * (JSInt.int z).toNum)
    ∧ P < Spec.annuity P r z * z
    ∧ (P < P * r * z ↔ 1 < r * z) := by
  have hzq : (0 : ℚ) < z := by exact_mod_cast (by omega : (0 : ℤ) < z)
  refine ⟨?_, annuity_total_gt P r z hP hr hz, ?_⟩
  · rw [monthlyPaymentOf_other impl htype] at hnz ⊢
    have hle := interest_le_repayment impl P r z hP hr (by omega) hnz
    rw [JSInt.toNum_int]
    rw [JSNum.num_mul] at hnz hle ⊢
    rcases roundToDouble_nonneg (le_of_lt (mul_pos hP hr)) with h | ⟨a, h, ha0⟩
    · rw [h] at hle ⊢
      cases hrep : monthlyPaymentOf impl "repayment" (JSNum.num P) (JSNum.num r)
          (JSInt.int z) with
      | nan =>
        rw [hrep] at hle
        exact absurd hle (fun hh => hh)
      | num b =>
        rw [hrep] at hle
        exact absurd hle (fun hh => Bool.noConfusion (hh : false = true))
      | inf b =>
        rw [hrep] at hle
        have hb : b = false := by
          rcases hle with hh | hh
          · exact Bool.noConfusion hh
          · exact hh
        rw [hb, JSNum.inf_mul_pos hzq]
        exact Or.inr rfl
    · rw [h] at hle ⊢
      exact JSNum.mul_le_mul_right_of_nonneg ha0 hzq hle
  · rw [mul_assoc]
    constructor
    · intro h
      by_contra hcon
      have := mul_le_mul_of_nonneg_left (not_lt.mp hcon) (le_of_lt hP)
      linarith
    · intro h
      have := mul_lt_mul_of_pos_left h hP
      linarith

/-- C10 as amended, at principal 100000, the monthly rate of 5 per cent a year and 300
months. -/
theorem repayment_total_ge_interest_total_witness :
    "interest-only" ≠ "repayment" ∧ (0 : ℚ) < 100000 ∧ (0 : ℚ) < (4803839602528529 / 1152921504606846976) ∧ (1 : ℤ) ≤ 300
    ∧ monthlyPaymentOf PowImpl.nearest "interest-only" (JSNum.num 100000) (JSNum.num (4803839602528529 / 1152921504606846976))
        (JSInt.int 300) ≠ JSNum.num 0
    ∧ (100000 : ℚ) < Spec.annuity 100000 (4803839602528529 / 1152921504606846976) 300 * (300 : ℤ) := by
  have hnz : monthlyPaymentOf PowImpl.nearest "interest-only" (JSNum.num 100000)
      (JSNum.num (4803839602528529 / 1152921504606846976)) (JSInt.int 300) ≠ JSNum.num 0 := by
    rw [scenario2_monthly]
    intro h
    have := JSNum.num.inj h
    norm_num at this
  exact ⟨by decide, by norm_num, by norm_num, by norm_num, hnz,
    (repayment_total_ge_interest_total PowImpl.nearest "interest-only" 100000 _ 300
      (by decide) (by norm_num) (by norm_num) (by norm_num) hnz).2.1⟩

/-- C10 fails as stated: for amount 100000, term 1 and rate 0.000001 the monthly rate is
positive and the unrounded total the code computes for the type `"repayment"` is below the
principal; it prints as 99999.99. -/
theorem repayment_total_lt_principal :
    ∃ r M T : ℚ, 0 < r
      ∧ parseFloat "0.000001" / 100 / 12 = JSNum.num r
      ∧ monthlyPaymentOf PowImpl.nearest "repayment" (JSNum.num 100000) (JSNum.num r)
          (JSInt.int 12) = JSNum.num M
      ∧ JSNum.num M * (JSInt.int 12).toNum = JSNum.num T
      ∧ T < 100000 := by
  refine ⟨(1007438183012191 / 1208925819614629174706176), (4581298070008365 / 549755813888), (1717986776253137 / 17179869184), by norm_num, ?_, payment_100000_0_000001,
    total_100000_0_000001, by norm_num⟩
  rw [parseFloat_0_000001, monthlyRate_0_000001]

end MortgageCalculator
